import Mathlib

/-!
Verification development for litellm's response-normalization core
(`litellm/litellm_core_utils/llm_response_utils.py` and
`litellm/litellm_core_utils/core_helpers.py`).

The Python code is shallowly embedded: decoded JSON-like payload values
become the inductive type `PVal`, dictionary/iteration/truthiness semantics
become explicit helper functions, raising an exception becomes returning
`Except.error`, and in-place mutation of a caller-supplied payload becomes
explicit state passing (the mutated payload is returned alongside the
result).  JSON numbers are modelled as integers (none of the verified
behavior involves floating point).
-/

namespace LitellmSpec

/-- A decoded Python value as it occurs in provider response payloads.
`pnone`/`pbool`/`pint`/`pstr`/`plist`/`pdict` mirror the JSON-decoded shapes;
`pdtc` is a typed `ChatCompletionDeltaToolCall` object node (fields `id`,
`type`, `function`, `index`), which the asynchronous streaming adapter writes
back into the payload in place of raw tool-call dictionaries. -/
inductive PVal where
  | pnone : PVal
  | pbool : Bool → PVal
  | pint : Int → PVal
  | pstr : String → PVal
  | plist : List PVal → PVal
  | pdict : List (String × PVal) → PVal
  | pdtc : PVal → PVal → PVal → PVal → PVal

open PVal

/-- Python exception kinds that the embedded code can raise. -/
inductive AErr where
  | keyError : String → AErr
  | typeError : AErr
  | attrError : AErr
  | assertError : AErr
  | jsonDecodeError : AErr
  | formatError : AErr
  | validationError : AErr
deriving DecidableEq

/-- Python truthiness of a decoded value (`bool(v)`). Typed objects are truthy. -/
def truthy : PVal → Bool
  | pnone => false
  | pbool b => b
  | pint n => n != 0
  | pstr s => s != ""
  | plist l => !l.isEmpty
  | pdict l => !l.isEmpty
  | pdtc _ _ _ _ => true

/-- Python `d[k]` on a decoded value: dictionary lookup, `KeyError` when the
key is missing, `TypeError` when the value is not subscriptable by a string. -/
def pyGetItem : PVal → String → Except AErr PVal
  | pdict kvs, k =>
      match kvs.lookup k with
      | some v => .ok v
      | none => .error (.keyError k)
  | _, _ => .error .typeError

/-- Python `d.get(k, None)`: `AttributeError` when the receiver is not a dict. -/
def pyGetD (v : PVal) (k : String) : Except AErr PVal :=
  match v with
  | pdict kvs => .ok ((kvs.lookup k).getD pnone)
  | _ => .error .attrError

/-- Python `d.get(k, dflt)`: `AttributeError` when the receiver is not a dict. -/
def pyGetDefault (v : PVal) (k : String) (dflt : PVal) : Except AErr PVal :=
  match v with
  | pdict kvs => .ok ((kvs.lookup k).getD dflt)
  | _ => .error .attrError

/-- Whether the first list starts with the second. -/
def listStartsWith : List Char → List Char → Bool
  | _, [] => true
  | [], _ :: _ => false
  | a :: as, b :: bs => a == b && listStartsWith as bs

/-- Whether the second list occurs as a contiguous sublist of the first. -/
def listContainsSub : List Char → List Char → Bool
  | [], needle => needle.isEmpty
  | a :: rest, needle =>
      listStartsWith (a :: rest) needle || listContainsSub rest needle

/-- Substring test on raw strings (Python `needle in haystack` for `str`). -/
def strContains (haystack needle : String) : Bool :=
  listContainsSub haystack.toList needle.toList

/-- Python `s.startswith(pre)`. -/
def strStartsWith (s pre : String) : Bool :=
  listStartsWith s.toList pre.toList

/-- Python `s[n:]`. -/
def strDropN (s : String) (n : Nat) : String :=
  String.mk (s.toList.drop n)

/-- Python `s.split(sep)[0]`: the characters before the first separator
(the whole string when the separator does not occur). -/
def strSplitFirst (s : String) (sep : Char) : String :=
  String.mk (s.toList.takeWhile (fun c => c != sep))

/-- Python `needle in v` for a string needle: key membership for dicts,
element membership for lists, substring test for strings, `TypeError`
otherwise. -/
def pyIn (needle : String) (v : PVal) : Except AErr Bool :=
  match v with
  | pdict kvs => .ok (kvs.any (fun kv => kv.1 == needle))
  | plist l => .ok (l.any (fun x => match x with | pstr s => s == needle | _ => false))
  | pstr s => .ok (strContains s needle)
  | _ => .error .typeError

/-- Python iteration over a decoded value: list elements, string characters,
dict keys; `TypeError` for non-iterables. -/
def pyIterate : PVal → Except AErr (List PVal)
  | plist l => .ok l
  | pstr s => .ok (s.toList.map (fun c => pstr (String.singleton c)))
  | pdict kvs => .ok (kvs.map (fun kv => pstr kv.1))
  | _ => .error .typeError

/-- Python `.items()` on a decoded value: `AttributeError` for non-dicts. -/
def pyItems (v : PVal) : Except AErr (List (String × PVal)) :=
  match v with
  | pdict kvs => .ok kvs
  | _ => .error .attrError

/-- Python dict assignment `d[k] = v`: replaces the value in place when the
key exists (keeping its position), appends otherwise. -/
def pdictSet : List (String × PVal) → String → PVal → List (String × PVal)
  | [], k, v => [(k, v)]
  | (k0, v0) :: rest, k, v =>
      if k0 == k then (k0, v) :: rest else (k0, v0) :: pdictSet rest k v

/-- Python `dst.update(src)` on string-keyed dicts: existing keys are
overwritten in place, new keys are appended in `src` order. -/
def pdictUpdate (dst src : List (String × PVal)) : List (String × PVal) :=
  src.foldl (fun acc kv => pdictSet acc kv.1 kv.2) dst

/-- `map_finish_reason` from `core_helpers.py`, translated branch by branch
(including the redundant duplicate comparisons of the source). -/
def map_finish_reason (finish_reason : String) : String :=
  if finish_reason = "stop_sequence" then "stop"
  else if finish_reason = "COMPLETE" then "stop"
  else if finish_reason = "MAX_TOKENS" then "length"
  else if finish_reason = "ERROR_TOXIC" then "content_filter"
  else if finish_reason = "ERROR" then "stop"
  else if finish_reason = "eos_token" ∨ finish_reason = "stop_sequence" then "stop"
  else if finish_reason = "FINISH_REASON_UNSPECIFIED" ∨ finish_reason = "STOP" then "stop"
  else if finish_reason = "SAFETY" ∨ finish_reason = "RECITATION" then "content_filter"
  else if finish_reason = "STOP" then "stop"
  else if finish_reason = "end_turn" ∨ finish_reason = "stop_sequence" then "stop"
  else if finish_reason = "max_tokens" then "length"
  else if finish_reason = "tool_use" then "tool_calls"
  else if finish_reason = "content_filtered" then "content_filter"
  else finish_reason

/-- Escape one character for a JSON string literal (`json.dumps` default). -/
def escapeJsonChar (c : Char) : String :=
  if c = '"' then "\\\""
  else if c = '\\' then "\\\\"
  else if c = '\n' then "\\n"
  else if c = '\t' then "\\t"
  else if c = '\r' then "\\r"
  else String.singleton c

/-- Escape a string for a JSON string literal. -/
def escapeJson (s : String) : String :=
  String.join (s.toList.map escapeJsonChar)

mutual

/-- `json.dumps` with the default separators `", "` and `": "`.
A typed tool-call object node is not JSON-serializable in Python (raising
`TypeError`); such nodes never occur in the values this model serializes, so
they are rendered as an inert placeholder. -/
def jsonDumps : PVal → String
  | pnone => "null"
  | pbool true => "true"
  | pbool false => "false"
  | pint n => toString n
  | pstr s => "\"" ++ escapeJson s ++ "\""
  | plist l => "[" ++ dumpsList l ++ "]"
  | pdict kvs => "\x7b" ++ dumpsMembers kvs ++ "\x7d"
  | pdtc _ _ _ _ => "<object>"

/-- Comma-joined `json.dumps` of list elements. -/
def dumpsList : List PVal → String
  | [] => ""
  | [v] => jsonDumps v
  | v :: vs => jsonDumps v ++ ", " ++ dumpsList vs

/-- Comma-joined `json.dumps` of dict members. -/
def dumpsMembers : List (String × PVal) → String
  | [] => ""
  | [(k, v)] => "\"" ++ escapeJson k ++ "\": " ++ jsonDumps v
  | (k, v) :: kvs =>
      "\"" ++ escapeJson k ++ "\": " ++ jsonDumps v ++ ", " ++ dumpsMembers kvs

end

mutual

/-- Python `repr` of a decoded value (as relevant to `str()` formatting). -/
def pyRepr : PVal → String
  | pnone => "None"
  | pbool true => "True"
  | pbool false => "False"
  | pint n => toString n
  | pstr s => "'" ++ s ++ "'"
  | plist l => "[" ++ reprList l ++ "]"
  | pdict kvs => "\x7b" ++ reprMembers kvs ++ "\x7d"
  | pdtc _ _ _ _ => "<tool-call object>"

/-- Comma-joined `repr` of list elements. -/
def reprList : List PVal → String
  | [] => ""
  | [v] => pyRepr v
  | v :: vs => pyRepr v ++ ", " ++ reprList vs

/-- Comma-joined `repr` of dict members. -/
def reprMembers : List (String × PVal) → String
  | [] => ""
  | [(k, v)] => "'" ++ k ++ "': " ++ pyRepr v
  | (k, v) :: kvs => "'" ++ k ++ "': " ++ pyRepr v ++ ", " ++ reprMembers kvs

end

/-- Python `str(v)`: the string itself for strings, `repr`-style otherwise. -/
def pyStr : PVal → String
  | pstr s => s
  | v => pyRepr v

/-- Skip JSON whitespace. -/
def skipWs : List Char → List Char
  | [] => []
  | c :: cs =>
      if c = ' ' || c = '\n' || c = '\t' || c = '\r' then skipWs cs else c :: cs

/-- Parse the remainder of a JSON string literal (after the opening quote),
accumulating into `acc`; returns the decoded string and the rest of the
input. `\\u` escapes are outside the modelled fragment. -/
def parseJStrAux : List Char → String → Option (String × List Char)
  | [], _ => none
  | '"' :: cs, acc => some (acc, cs)
  | '\\' :: e :: cs, acc =>
      if e = '"' then parseJStrAux cs (acc.push '"')
      else if e = '\\' then parseJStrAux cs (acc.push '\\')
      else if e = '/' then parseJStrAux cs (acc.push '/')
      else if e = 'n' then parseJStrAux cs (acc.push '\n')
      else if e = 't' then parseJStrAux cs (acc.push '\t')
      else if e = 'r' then parseJStrAux cs (acc.push '\r')
      else if e = 'b' then parseJStrAux cs (acc.push (Char.ofNat 8))
      else if e = 'f' then parseJStrAux cs (acc.push (Char.ofNat 12))
      else none
  | '\\' :: [], _ => none
  | c :: cs, acc => parseJStrAux cs (acc.push c)

/-- Split a leading run of decimal digits from the input. -/
def takeDigits : List Char → (List Char × List Char)
  | [] => ([], [])
  | c :: cs =>
      if c.isDigit then
        let p := takeDigits cs
        (c :: p.1, p.2)
      else ([], c :: cs)

/-- Decimal digits to a natural number. -/
def digitsToNat (ds : List Char) : Nat :=
  ds.foldl (fun acc c => acc * 10 + (c.toNat - 48)) 0

/-- Parse a JSON integer literal. Fractional and exponent forms are outside
the modelled fragment (payloads verified here carry only integers). -/
def parseNum (cs : List Char) : Option (PVal × List Char) :=
  let neg := match cs with | '-' :: _ => true | _ => false
  let body := if neg then cs.drop 1 else cs
  let p := takeDigits body
  match p.1 with
  | [] => none
  | _ =>
      match p.2 with
      | '.' :: _ => none
      | 'e' :: _ => none
      | 'E' :: _ => none
      | rest =>
          let n : Int := Int.ofNat (digitsToNat p.1)
          some (pint (if neg then -n else n), rest)

/-- Control state of the JSON parser: parsing a value, the remaining
elements of an array, or the remaining members of an object. -/
inductive PMode where
  | val : PMode
  | elems : List PVal → PMode
  | members : List (String × PVal) → PMode

/-- Fuel-indexed JSON parser (`json.loads` grammar, integers only; the fuel
decreases at every step, keeping the recursion structural).  In object
mode, duplicate keys keep the first position with the later value, as in
Python. -/
def parseStep : Nat → PMode → List Char → Option (PVal × List Char)
  | 0, _, _ => none
  | Nat.succ fuel, .val, cs =>
      match skipWs cs with
      | '"' :: rest =>
          match parseJStrAux rest "" with
          | some (s, r) => some (pstr s, r)
          | none => none
      | '{' :: rest =>
          match skipWs rest with
          | '}' :: r2 => some (pdict [], r2)
          | cs2 => parseStep fuel (.members []) cs2
      | '[' :: rest =>
          match skipWs rest with
          | ']' :: r2 => some (plist [], r2)
          | cs2 => parseStep fuel (.elems []) cs2
      | 't' :: 'r' :: 'u' :: 'e' :: r => some (pbool true, r)
      | 'f' :: 'a' :: 'l' :: 's' :: 'e' :: r => some (pbool false, r)
      | 'n' :: 'u' :: 'l' :: 'l' :: r => some (pnone, r)
      | cs2 => parseNum cs2
  | Nat.succ fuel, .elems acc, cs =>
      match parseStep fuel .val cs with
      | none => none
      | some (v, rest) =>
          match skipWs rest with
          | ',' :: r2 => parseStep fuel (.elems (v :: acc)) r2
          | ']' :: r2 => some (plist (v :: acc).reverse, r2)
          | _ => none
  | Nat.succ fuel, .members acc, cs =>
      match skipWs cs with
      | '"' :: rest =>
          match parseJStrAux rest "" with
          | none => none
          | some (k, r1) =>
              match skipWs r1 with
              | ':' :: r2 =>
                  match parseStep fuel .val r2 with
                  | none => none
                  | some (v, r3) =>
                      match skipWs r3 with
                      | ',' :: r4 => parseStep fuel (.members (pdictSet acc k v)) r4
                      | '}' :: r4 => some (pdict (pdictSet acc k v), r4)
                      | _ => none
              | _ => none
      | _ => none

/-- `json.loads`: parse a complete JSON document, requiring only trailing
whitespace after the value; `none` models `json.JSONDecodeError`. -/
def jsonLoads (s : String) : Option PVal :=
  match parseStep (s.length * 4 + 16) .val s.toList with
  | some (v, rest) => if skipWs rest = [] then some v else none
  | none => none

/-- The `Function` part of a typed tool call (`litellm.types.utils.Function`):
a name and a JSON-encoded argument string.  Field values are kept as raw
Python values so that malformed payloads are representable. -/
structure FunctionT where
  name : PVal
  arguments : PVal

/-- A typed `ChatCompletionMessageToolCall`: identifier, type tag and
function. -/
structure CCMTC where
  id : PVal
  type : PVal
  function : FunctionT

/-- The sentinel pseudo-function name produced by the provider
hallucination that packs several tool calls into one. -/
def sentinelFunctionName : String := "multi_tool_use.parallel"

/-- `json.loads` applied to a Python value: strings are parsed
(`JSONDecodeError` on failure), non-strings raise `TypeError`. -/
def pyJsonLoads (v : PVal) : Except AErr PVal :=
  match v with
  | pstr s =>
      match jsonLoads s with
      | some j => .ok j
      | none => .error .jsonDecodeError
  | _ => .error .typeError

/-- Rewrite one packed pseudo-call into a genuine tool call: id is the
original id suffixed with the pseudo-call position, the
`"functions."` prefix of the recipient name is stripped, and the
`parameters` object is re-encoded as the argument string
(`_handle_invalid_parallel_tool_calls`, inner loop body). -/
def expandPseudoCall (tcId : PVal) (i : Nat) (u : PVal) : Except AErr CCMTC := do
  let params ← pyGetItem u "parameters"
  let rn ← pyGetItem u "recipient_name"
  match rn with
  | pstr s =>
      let nm := if strStartsWith s "functions." then strDropN s 10 else s
      .ok { id := pstr (pyStr tcId ++ "_" ++ toString i),
            type := pstr "function",
            function := { name := pstr nm, arguments := pstr (jsonDumps params) } }
  | _ => .error .attrError

/-- Expand a run of packed pseudo-calls starting at position `i`. -/
def expandUses (tcId : PVal) : Nat → List PVal → Except AErr (List CCMTC)
  | _, [] => .ok []
  | i, u :: rest => do
      let c ← expandPseudoCall tcId i u
      let cs ← expandUses tcId (i + 1) rest
      .ok (c :: cs)

/-- Expand a detected sentinel call: its decoded arguments must carry a
`tool_uses` collection whose entries are rewritten in order. -/
def expandSentinelCall (tc : CCMTC) (functionArgs : PVal) : Except AErr (List CCMTC) := do
  let tu ← pyGetItem functionArgs "tool_uses"
  let uses ← pyIterate tu
  expandUses tc.id 0 uses

/-- First phase of `_handle_invalid_parallel_tool_calls`: walk the list,
decoding every call's argument string with `json.loads` (regardless of its
name), and record an expansion for each call named
`"multi_tool_use.parallel"`, keyed by its index (indices in increasing
order, as Python's insertion-ordered dict yields them). -/
def collectReplacements : Nat → List CCMTC → Except AErr (List (Nat × List CCMTC))
  | _, [] => .ok []
  | i, tc :: rest => do
      let functionArgs ← pyJsonLoads tc.function.arguments
      let isSentinel :=
        match tc.function.name with
        | pstr s => s == sentinelFunctionName
        | _ => false
      if isSentinel then do
        let repl ← expandSentinelCall tc functionArgs
        let tail ← collectReplacements (i + 1) rest
        .ok ((i, repl) :: tail)
      else
        collectReplacements (i + 1) rest

/-- Second phase of `_handle_invalid_parallel_tool_calls`: apply the
recorded replacements by list slicing, advancing `shift` by the full length
of each replacement after applying it (exactly as the source does). -/
def spliceReplacements : List CCMTC → Nat → List (Nat × List CCMTC) → List CCMTC
  | ts, _, [] => ts
  | ts, shift, (i, repl) :: rest =>
      spliceReplacements
        (ts.take (i + shift) ++ repl ++ ts.drop (i + shift + 1))
        (shift + repl.length) rest

/-- `_handle_invalid_parallel_tool_calls`: `None` input is returned as-is;
otherwise both phases run and the (possibly rewritten) list is returned. -/
def handleInvalidParallelToolCalls (toolCalls : Option (List CCMTC)) :
    Except AErr (Option (List CCMTC)) :=
  match toolCalls with
  | none => .ok none
  | some tcs => do
      let rs ← collectReplacements 0 tcs
      .ok (some (spliceReplacements tcs 0 rs))

/-- A `Usage` record as built by the streaming adapters (token counts as
raw values; both adapters populate all three counts from the payload with a
default of `0`, the constructor-default path supplying zeroed counts). -/
structure UsageT where
  completion_tokens : PVal
  prompt_tokens : PVal
  total_tokens : PVal

/-- A `Delta` (partial streaming message). -/
structure DeltaT where
  content : PVal
  role : PVal
  function_call : PVal
  tool_calls : PVal

/-- A `StreamingChoices` entry.  Modelled from the spec: the
`StreamingChoices` constructor (litellm.types.utils, not among the embedded
sources) stores the finish reason as given with no canonical mapping and no
`"stop"` default (§4.5), and defaults `enhancements` to `None` when the
caller does not pass them. -/
structure StreamingChoicesT where
  finish_reason : PVal
  index : Nat
  delta : DeltaT
  logprobs : PVal
  enhancements : PVal

/-- The streaming `ModelResponse` being assembled.  Top-level fields are
`none` when the adapter never assigned them (constructor defaults). -/
structure SMR where
  choices : List StreamingChoicesT
  usage : Option UsageT
  id : Option PVal
  created : Option PVal
  system_fingerprint : Option PVal
  model : Option PVal

/-- Modelled from the spec: construction of a `ChatCompletionDeltaToolCall`
from a raw record via `**`-unpacking (litellm.types.utils, not among the
embedded sources) — a raw dict's fields are taken over into a typed
delta-style tool-call object (§4.5); unpacking a non-mapping raises
`TypeError`. -/
def dtcOfVal (t : PVal) : Except AErr PVal :=
  match t with
  | pdict d =>
      .ok (pdtc ((d.lookup "id").getD pnone) ((d.lookup "type").getD pnone)
        ((d.lookup "function").getD pnone) ((d.lookup "index").getD pnone))
  | _ => .error .typeError

/-- One step of the tool-call reindexing loop: a record missing an explicit
`index` key is assigned one equal to its position, then typed. -/
def reindexOne (i : Nat) (t : PVal) : Except AErr PVal := do
  let mem ← pyIn "index" t
  let t2 :=
    match t, mem with
    | pdict d, false => pdict (pdictSet d "index" (pint (Int.ofNat i)))
    | _, _ => t
  dtcOfVal t2

/-- Reindex and type a list of raw tool-call records starting at position
`i` (the loop shared by the asynchronous adapter and the `Delta`
constructor). -/
def reindexAndType : Nat → List PVal → Except AErr (List PVal)
  | _, [] => .ok []
  | i, t :: rest => do
      let t2 ← reindexOne i t
      let rest2 ← reindexAndType (i + 1) rest
      .ok (t2 :: rest2)

/-- The tool-call normalization of the `Delta` constructor: a non-empty
list whose first entry is a raw record is reindexed and typed; any other
value passes through unchanged. -/
def deltaToolCallsInit (tool_calls : PVal) : Except AErr PVal :=
  match tool_calls with
  | plist (t :: rest) =>
      match t with
      | pdict _ => do
          let typed ← reindexAndType 0 (t :: rest)
          pure (plist typed)
      | _ => pure tool_calls
  | _ => pure tool_calls

/-- Modelled from the spec: the `Delta` constructor (litellm.types.utils,
not among the embedded sources) — §4.5: raw tool-call entries present as a
non-empty list of untyped records are each assigned a position index when
missing one and typed into delta-style tool-call objects; `content`, `role`
(propagated as-is, no default substitution) and `function_call` are stored
as given; already-typed or non-qualifying tool-call values are stored
unchanged. -/
def deltaInit (content role function_call tool_calls : PVal) : Except AErr DeltaT := do
  let tc2 ← deltaToolCallsInit tool_calls
  .ok { content := content, role := role, function_call := function_call,
        tool_calls := tc2 }

/-- The streaming finish-reason policy shared by both adapters:
`choice.get("finish_reason")`, falling back to
`choice.get("finish_details")` when the former is `None` — no canonical
mapping, no `"stop"` default. -/
def streamFinishReason (choice : PVal) : Except AErr PVal := do
  let fr0 ← pyGetD choice "finish_reason"
  match fr0 with
  | pnone => pyGetD choice "finish_details"
  | v => pure v

/-- Per-choice normalization of `convert_to_streaming_response` (the
synchronous adapter): build the `Delta` from the raw message, take
`finish_reason` with fallback to `finish_details`, and copy `logprobs` and
`enhancements`. -/
def streamingChoiceSync (idx : Nat) (choice : PVal) : Except AErr StreamingChoicesT := do
  let msgV ← pyGetItem choice "message"
  let content ← pyGetD msgV "content"
  let role ← pyGetItem msgV "role"
  let fc ← pyGetD msgV "function_call"
  let tcV ← pyGetD msgV "tool_calls"
  let delta ← deltaInit content role fc tcV
  let fr ← streamFinishReason choice
  let lp ← pyGetD choice "logprobs"
  let enh ← pyGetD choice "enhancements"
  .ok { finish_reason := fr, index := idx, delta := delta, logprobs := lp,
        enhancements := enh }

/-- The asynchronous adapter's mutation step for one message's raw
`tool_calls` value: when it is a non-empty list whose first element is a
raw record, every record is assigned its position as `index` when missing
one and typed; `none` means the guard did not fire and nothing is written
back. -/
def asyncToolCallStep (tcV0 : PVal) : Except AErr (Option PVal) :=
  match tcV0 with
  | plist (t :: rest) =>
      match t with
      | pdict _ => do
          let typed ← reindexAndType 0 (t :: rest)
          pure (some (plist typed))
      | _ => pure (none : Option PVal)
  | _ => pure (none : Option PVal)

/-- Per-choice normalization of `convert_to_streaming_response_async`: when
the message's `tool_calls` is a non-empty list whose first entry is a raw
record, the records are reindexed, typed, and written back into the
message in place (mutating the caller's payload — returned here as the
updated choice); the `Delta` is then built from the current message, with
`finish_reason` falling back to `finish_details`; `enhancements` is never
copied (constructor default). -/
def streamingChoiceAsync (idx : Nat) (choice : PVal) :
    Except AErr (StreamingChoicesT × PVal) := do
  let msgV ← pyGetItem choice "message"
  let tcV0 ← pyGetD msgV "tool_calls"
  let step ← asyncToolCallStep tcV0
  let sub :=
    match step with
    | some newTc =>
        let m2 :=
          match msgV with
          | pdict md => pdict (pdictSet md "tool_calls" newTc)
          | _ => msgV
        let c2 :=
          match choice with
          | pdict cd => pdict (pdictSet cd "message" m2)
          | _ => choice
        (m2, c2)
    | none => (msgV, choice)
  let content ← pyGetD sub.1 "content"
  let role ← pyGetItem sub.1 "role"
  let fc ← pyGetD sub.1 "function_call"
  let tcV ← pyGetD sub.1 "tool_calls"
  let delta ← deltaInit content role fc tcV
  let fr ← streamFinishReason sub.2
  let lp ← pyGetD sub.2 "logprobs"
  .ok ({ finish_reason := fr, index := idx, delta := delta, logprobs := lp,
         enhancements := pnone }, sub.2)

/-- The synchronous adapter's per-choice loop. -/
def streamingChoicesSync : Nat → List PVal → Except AErr (List StreamingChoicesT)
  | _, [] => .ok []
  | i, c :: rest => do
      let sc ← streamingChoiceSync i c
      let tail ← streamingChoicesSync (i + 1) rest
      .ok (sc :: tail)

/-- The asynchronous adapter's per-choice loop, also accumulating the
(possibly mutated) choice dictionaries. -/
def streamingChoicesAsync : Nat → List PVal →
    Except AErr (List StreamingChoicesT × List PVal)
  | _, [] => .ok ([], [])
  | i, c :: rest => do
      let p ← streamingChoiceAsync i c
      let q ← streamingChoicesAsync (i + 1) rest
      .ok (p.1 :: q.1, p.2 :: q.2)

/-- Copy a top-level payload key when present (`if k in response_object:`
followed by assignment), shared by both adapters. -/
def copyKey (ro : PVal) (k : String) : Except AErr (Option PVal) := do
  let mem ← pyIn k ro
  if mem then do
    let v ← pyGetItem ro k
    pure (some v)
  else
    pure none

/-- Usage population shared by both adapters: when `usage` is present and
non-`None`, all three token counts are taken from it with a default of 0. -/
def usageFromPayload (ro : PVal) : Except AErr (Option UsageT) := do
  let mem ← pyIn "usage" ro
  if mem then do
    let uv ← pyGetItem ro "usage"
    match uv with
    | pnone => pure none
    | u => do
        let ct ← pyGetDefault u "completion_tokens" (pint 0)
        let pt ← pyGetDefault u "prompt_tokens" (pint 0)
        let tt ← pyGetDefault u "total_tokens" (pint 0)
        pure (some { completion_tokens := ct, prompt_tokens := pt,
                     total_tokens := tt })
  else
    pure none

/-- `convert_to_streaming_response`: the synchronous streaming adapter.
It reads the payload without modifying it. -/
def convertToStreamingResponse (responseObject : Option PVal) : Except AErr SMR := do
  match responseObject with
  | none => .error .formatError
  | some ro => do
      let choicesV ← pyGetItem ro "choices"
      let elems ← pyIterate choicesV
      let choices ← streamingChoicesSync 0 elems
      let usage ← usageFromPayload ro
      let idv ← copyKey ro "id"
      let createdv ← copyKey ro "created"
      let sfv ← copyKey ro "system_fingerprint"
      let modelv ← copyKey ro "model"
      .ok { choices := choices, usage := usage, id := idv, created := createdv,
            system_fingerprint := sfv, model := modelv }

/-- `convert_to_streaming_response_async`: the asynchronous streaming
adapter.  The second component of the result is the payload as it stands
after the call (the source mutates the caller's choice dictionaries in
place when typing raw tool calls). -/
def convertToStreamingResponseAsync (responseObject : Option PVal) :
    Except AErr (SMR × PVal) := do
  match responseObject with
  | none => .error .formatError
  | some ro => do
      let choicesV ← pyGetItem ro "choices"
      let elems ← pyIterate choicesV
      let p ← streamingChoicesAsync 0 elems
      let ro2 :=
        match choicesV with
        | plist _ =>
            match ro with
            | pdict kvs => pdict (pdictSet kvs "choices" (plist p.2))
            | _ => ro
        | _ => ro
      let usage ← usageFromPayload ro2
      let idv ← copyKey ro2 "id"
      let createdv ← copyKey ro2 "created"
      let sfv ← copyKey ro2 "system_fingerprint"
      let modelv ← copyKey ro2 "model"
      .ok ({ choices := p.1, usage := usage, id := idv, created := createdv,
             system_fingerprint := sfv, model := modelv }, ro2)

/-- Clear the `enhancements` field of every streaming choice (the one field
the synchronous adapter copies and the asynchronous one does not). -/
def eraseEnhancements (r : SMR) : SMR :=
  { r with choices := r.choices.map (fun c => { c with enhancements := pnone }) }

/-- The asynchronous adapter's mutation guard for one raw choice: its
message carries a `tool_calls` entry that is a non-empty list whose first
element is a raw record. -/
def mutatesToolCalls (choice : PVal) : Bool :=
  match choice with
  | pdict cd =>
      match cd.lookup "message" with
      | some (pdict md) =>
          match md.lookup "tool_calls" with
          | some (plist (pdict _ :: _)) => true
          | _ => false
      | _ => false
  | _ => false

/-- `_get_openai_headers`: copy the four recognized rate-limit headers, in
the source's fixed order, when present. -/
def getOpenaiHeaders (h : List (String × PVal)) : List (String × PVal) :=
  (match h.lookup "x-ratelimit-limit-requests" with
    | some v => [("x-ratelimit-limit-requests", v)]
    | none => []) ++
  (match h.lookup "x-ratelimit-remaining-requests" with
    | some v => [("x-ratelimit-remaining-requests", v)]
    | none => []) ++
  (match h.lookup "x-ratelimit-limit-tokens" with
    | some v => [("x-ratelimit-limit-tokens", v)]
    | none => []) ++
  (match h.lookup "x-ratelimit-remaining-tokens" with
    | some v => [("x-ratelimit-remaining-tokens", v)]
    | none => [])

/-- `_set_headers_in_hidden_params`: store, under `additional_headers`, the
provider-prefixed copy of all raw headers overridden by the four
recognized un-prefixed keys. -/
def setHeadersInHiddenParams (hp h : List (String × PVal)) : List (String × PVal) :=
  let openaiHeaders := getOpenaiHeaders h
  let llmHeaders := h.map (fun kv => ("llm_provider-" ++ kv.1, kv.2))
  pdictSet hp "additional_headers" (pdict (pdictUpdate llmHeaders openaiHeaders))

/-- Modelled from the spec: the `Choices` constructor (litellm.types.utils,
not among the embedded sources) passes the supplied finish reason through
the Finish-Reason Mapper before storing it (§4.4 step 3); a non-string
value fails all of the mapper's string comparisons and is left unchanged. -/
def mapFinishReasonPVal : PVal → PVal
  | pstr s => pstr (map_finish_reason s)
  | v => v

/-- A typed `Message` as assembled for a non-streaming completion choice. -/
structure MessageT where
  content : PVal
  role : PVal
  function_call : PVal
  tool_calls : Option (List CCMTC)
  audio : PVal

/-- Modelled from the spec: `litellm.Message(content=...)` used on the
JSON-mode coercion path — the Message model's `role` defaults to
`"assistant"` (§3 Message model invariant) and all other fields are left
unset. -/
def jsonModeMessage (contentStr : PVal) : MessageT :=
  { content := contentStr, role := pstr "assistant", function_call := pnone,
    tool_calls := none, audio := pnone }

/-- A `Choices` entry of a non-streaming completion response. -/
structure ChoicesT where
  finish_reason : PVal
  index : Nat
  message : MessageT
  logprobs : PVal
  enhancements : PVal

/-- Modelled from the spec: construction of a
`ChatCompletionMessageToolCall` from a raw record via `**`-unpacking
(litellm.types.utils, not among the embedded sources) — §3: a ToolCall
carries an identifier, a type tag and a Function (name, JSON-encoded
argument string); a record without a `function` member fails validation
and unpacking a non-mapping raises `TypeError`. -/
def ccmtcOfVal (t : PVal) : Except AErr CCMTC :=
  match t with
  | pdict d =>
      match d.lookup "function" with
      | some (pdict fd) =>
          .ok { id := (d.lookup "id").getD pnone,
                type := (d.lookup "type").getD pnone,
                function := { name := (fd.lookup "name").getD pnone,
                              arguments := (fd.lookup "arguments").getD pnone } }
      | _ => .error .validationError
  | _ => .error .typeError

/-- Type every raw tool-call record of a message in order. -/
def ccmtcList : List PVal → Except AErr (List CCMTC)
  | [] => .ok []
  | t :: rest => do
      let c ← ccmtcOfVal t
      let cs ← ccmtcList rest
      .ok (c :: cs)

/-- The tool-call stage of one non-streaming choice: read
`message.get("tool_calls")`, type the records, run
`_handle_invalid_parallel_tool_calls`, and keep the repaired list when the
repair returned one. -/
def toolCallsOfChoice (msgVal : PVal) : Except AErr (Option (List CCMTC)) := do
  let rawTc ← pyGetD msgVal "tool_calls"
  match rawTc with
  | pnone => pure none
  | v => do
      let elems ← pyIterate v
      let tcs ← ccmtcList elems
      let fixed ← handleInvalidParallelToolCalls (some tcs)
      match fixed with
      | some l => pure (some l)
      | none => pure (some tcs)

/-- Whether the JSON-mode coercion branch is taken for a choice: coercion
requested, exactly one effective tool call, and its argument string
present. -/
def jsonModeTaken (coerce : Bool) (toolCalls : Option (List CCMTC)) : Bool :=
  coerce &&
    match toolCalls with
    | some [tc] =>
        match tc.function.arguments with
        | pnone => false
        | _ => true
    | _ => false

/-- Per-choice assembly of the non-streaming completion path of
`convert_to_model_response_object`: the tool-call stage, the JSON-mode
coercion branch, normal message construction with the `"assistant"` role
fallback, the finish-reason fallback chain, and the `Choices` constructor
(which applies the Finish-Reason Mapper). -/
def convertChoice (coerce : Bool) (idx : Nat) (choice : PVal) : Except AErr ChoicesT := do
  let msgVal ← pyGetItem choice "message"
  let toolCalls ← toolCallsOfChoice msgVal
  if jsonModeTaken coerce toolCalls then do
    let argVal :=
      match toolCalls with
      | some (tc :: _) => tc.function.arguments
      | _ => pnone
    let lp ← pyGetD choice "logprobs"
    let enh ← pyGetD choice "enhancements"
    .ok { finish_reason := mapFinishReasonPVal (pstr "stop"), index := idx,
          message := jsonModeMessage argVal, logprobs := lp, enhancements := enh }
  else do
    let content ← pyGetD msgVal "content"
    let role ← pyGetItem msgVal "role"
    let fc ← pyGetD msgVal "function_call"
    let audio ← pyGetD msgVal "audio"
    let fr0 ← pyGetD choice "finish_reason"
    let fr ←
      match fr0 with
      | pnone => do
          let fd ← pyGetD choice "finish_details"
          pure (if truthy fd then fd else pstr "stop")
      | v => pure v
    let lp ← pyGetD choice "logprobs"
    let enh ← pyGetD choice "enhancements"
    .ok { finish_reason := mapFinishReasonPVal fr, index := idx,
          message :=
            { content := content,
              role := if truthy role then role else pstr "assistant",
              function_call := fc, tool_calls := toolCalls, audio := audio },
          logprobs := lp, enhancements := enh }

/-- The non-streaming completion per-choice loop. -/
def convertChoices (coerce : Bool) : Nat → List PVal → Except AErr (List ChoicesT)
  | _, [] => .ok []
  | i, c :: rest => do
      let ch ← convertChoice coerce i c
      let tail ← convertChoices coerce (i + 1) rest
      .ok (ch :: tail)

/-- A non-streaming completion `ModelResponse` target.  `extra` holds the
forward-compatibility passthrough attributes set for unknown payload
keys. -/
structure ModelResponseT where
  id : PVal
  created : PVal
  model : PVal
  system_fingerprint : PVal
  choices : List ChoicesT
  usage : Option PVal
  hidden_params : Option (List (String × PVal))
  response_headers : Option (List (String × PVal))
  response_ms : Option Int
  extra : List (String × PVal)

/-- An `ImageResponse` target (fields touched by the image branch). -/
structure ImageRespT where
  created : PVal
  data : PVal
  hidden_params : Option (List (String × PVal))

/-- A `TranscriptionResponse` target (fields touched by the transcription
branch; the enumerated optional keys are stored as attributes). -/
structure TranscriptionT where
  text : PVal
  fields : List (String × PVal)
  hidden_params : Option (List (String × PVal))
  response_headers : Option (List (String × PVal))

/-- Modelled from the spec: the possible classes of a caller-supplied
`model_response_object`, a closed tagged union over the five response
kinds (§9) — the `isinstance` tests of the source distinguish exactly
these mutually disjoint variants. -/
inductive MROIn where
  | modelResponse : ModelResponseT → MROIn
  | embeddingResponse : MROIn
  | imageResponse : ImageRespT → MROIn
  | transcriptionResponse : TranscriptionT → MROIn
  | rerankResponse : MROIn

/-- The `response_type` literal. -/
inductive RType where
  | completion
  | embedding
  | image_generation
  | audio_transcription
  | rerank
deriving DecidableEq

/-- The possible successful outcomes of `convert_to_model_response_object`:
a populated completion target, an unevaluated streaming generator over the
payload, a delegation to the sibling embedding/rerank assemblers (external
collaborators, recorded with the arguments passed to them), an image or
transcription target, or Python's implicit `None` when no dispatch branch
matched. -/
inductive ConvResult where
  | modelResp : ModelResponseT → ConvResult
  | streamingGen : PVal → ConvResult
  | embeddingDelegated : Option PVal → Bool → Option Int → Option Int →
      List (String × PVal) → Option (List (String × PVal)) → ConvResult
  | imageResp : ImageRespT → ConvResult
  | transcriptionResp : TranscriptionT → ConvResult
  | rerankDelegated : Bool → Option PVal → ConvResult
  | noneResult : ConvResult

/-- The exceptions `convert_to_model_response_object` can let escape: the
structured upstream-error exception (status code and message), an
exception raised by the pre-`try` error check itself, or the wrapped
`"Invalid response object"` exception produced by the outermost handler. -/
inductive PyErr where
  | apiError : PVal → String → PyErr
  | uncaught : AErr → PyErr
  | invalidResponse : PyErr

/-- The error-surface check that precedes all assembly: whether the payload
carries a non-`None` `error` member (returning it when it does). -/
def checkError (ro : Option PVal) : Except AErr (Option PVal) :=
  match ro with
  | none => .ok none
  | some v => do
      let b ← pyIn "error" v
      if b then do
        let e ← pyGetItem v "error"
        match e with
        | pnone => pure none
        | ev => pure (some ev)
      else
        pure none

/-- The status code and message assembled for an upstream-reported error:
status defaults to 422 and is overridden by `error["code"]` when the error
is a dict with that key; the message defaults to
`"Error in response object"` and is taken from `error["message"]`
(JSON-encoded when that field is itself a dict, `str(...)` otherwise). -/
def errorArgsOf (e : PVal) : PVal × String :=
  match e with
  | pdict d =>
      let st := (d.lookup "code").getD (pint 422)
      let msg :=
        match d.lookup "message" with
        | some (pdict md) => jsonDumps (pdict md)
        | some m => pyStr m
        | none => "Error in response object"
      (st, msg)
  | _ => (pint 422, "Error in response object")

/-- The image-generation branch of the assembler. -/
def imageBranch (ro : Option PVal) (target : Option ImageRespT)
    (hp : List (String × PVal)) : Except AErr ConvResult := do
  match ro with
  | none => .error .formatError
  | some rov => do
      let t0 := target.getD { created := pnone, data := pnone, hidden_params := none }
      let createdMem ← pyIn "created" rov
      let t1 ←
        if createdMem then do
          let v ← pyGetItem rov "created"
          pure { t0 with created := v }
        else pure t0
      let dataMem ← pyIn "data" rov
      let t2 ←
        if dataMem then do
          let v ← pyGetItem rov "data"
          pure { t1 with data := v }
        else pure t1
      .ok (.imageResp { t2 with hidden_params := some hp })

/-- The transcription branch's loop over the enumerated optional keys. -/
def optionalKeysFold : TranscriptionT → List String → PVal → Except AErr TranscriptionT
  | t, [], _ => .ok t
  | t, k :: ks, rov => do
      let mem ← pyIn k rov
      let t2 ←
        if mem then do
          let v ← pyGetItem rov k
          pure { t with fields := pdictSet t.fields k v }
        else pure t
      optionalKeysFold t2 ks rov

/-- The audio-transcription branch of the assembler. -/
def transcriptionBranch (ro : Option PVal) (target : Option TranscriptionT)
    (hp : List (String × PVal)) (rh : Option (List (String × PVal))) :
    Except AErr ConvResult := do
  match ro with
  | none => .error .formatError
  | some rov => do
      let t0 := target.getD
        { text := pnone, fields := [], hidden_params := none,
          response_headers := none }
      let textMem ← pyIn "text" rov
      let t1 ←
        if textMem then do
          let v ← pyGetItem rov "text"
          pure { t0 with text := v }
        else pure t0
      let t2 ← optionalKeysFold t1 ["language", "task", "duration", "words", "segments"] rov
      let t3 := { t2 with hidden_params := some hp }
      let t4 :=
        match rh with
        | some h => { t3 with response_headers := some h }
        | none => t3
      .ok (.transcriptionResp t4)

/-- Modelled from the spec: the canonical completion response's known field
set (`litellm.ModelResponse.model_fields`, not among the embedded sources)
— identifier, choices, creation timestamp, model name, object tag and
system fingerprint (§3, §4.4) — with `"usage"` appended by the source. -/
def specialKeys : List String :=
  ["id", "choices", "created", "model", "object", "system_fingerprint", "usage"]

/-- The non-streaming completion branch body of
`convert_to_model_response_object`, populating the caller-supplied
`ModelResponse` target from the payload. -/
def completionCore (rov : PVal) (m0 : ModelResponseT) (coerce : Bool)
    (startTime endTime : Option Int) (hp : List (String × PVal))
    (rh : Option (List (String × PVal))) (now : Int) (freshId : String) :
    Except AErr ModelResponseT := do
  let choicesV ← pyGetItem rov "choices"
  let iterableOk :=
    match choicesV with
    | pnone => false
    | pint _ => false
    | pbool _ => false
    | _ => true
  if iterableOk then do
    let elems ← pyIterate choicesV
    let clist ← convertChoices coerce 0 elems
    let m1 := { m0 with choices := clist }
    let usageMem ← pyIn "usage" rov
    let m2 ←
      if usageMem then do
        let uv ← pyGetItem rov "usage"
        match uv with
        | pnone => pure m1
        | pdict ukvs => pure { m1 with usage := some (pdict ukvs) }
        | _ => .error .typeError
      else pure m1
    let createdMem ← pyIn "created" rov
    let m3 ←
      if createdMem then do
        let v ← pyGetItem rov "created"
        pure { m2 with created := if truthy v then v else pint now }
      else pure m2
    let idMem ← pyIn "id" rov
    let m4 ←
      if idMem then do
        let v ← pyGetItem rov "id"
        pure { m3 with id := if truthy v then v else pstr freshId }
      else pure m3
    let sfMem ← pyIn "system_fingerprint" rov
    let m5 ←
      if sfMem then do
        let v ← pyGetItem rov "system_fingerprint"
        pure { m4 with system_fingerprint := v }
      else pure m4
    let modelMem ← pyIn "model" rov
    let m6 ←
      if modelMem then do
        let v ← pyGetItem rov "model"
        match m5.model with
        | pnone => pure { m5 with model := v }
        | mv => do
            let hasSlash ← pyIn "/" mv
            if hasSlash then
              match v with
              | pnone => pure m5
              | pstr vs =>
                  match mv with
                  | pstr ms =>
                      pure { m5 with
                             model := pstr (strSplitFirst ms '/' ++ "/" ++ vs) }
                  | _ => .error .attrError
              | _ =>
                  match mv with
                  | pstr _ => .error .typeError
                  | _ => .error .attrError
            else pure m5
      else pure m5
    let m7 :=
      match startTime, endTime with
      | some s, some e => { m6 with response_ms := some ((e - s) * 1000) }
      | _, _ => m6
    let m8 := { m7 with hidden_params := some (pdictUpdate (m7.hidden_params.getD []) hp) }
    let m9 :=
      match rh with
      | some h => { m8 with response_headers := some h }
      | none => m8
    let items ← pyItems rov
    let m10 := items.foldl
      (fun acc kv =>
        if specialKeys.contains kv.1 then acc
        else { acc with extra := pdictSet acc.extra kv.1 kv.2 })
      m9
    .ok m10
  else .error .assertError

/-- The dispatch of `convert_to_model_response_object` over the response
type and the class of the supplied target, inside the outer `try` (the
`elif` chain of the source; no matching branch means the function body
falls through and returns Python's `None`). -/
def convertInner (ro : Option PVal) (mro : Option MROIn) (rt : RType)
    (stream : Bool) (st et : Option Int) (hp : List (String × PVal))
    (rh : Option (List (String × PVal))) (coerceOpt : Option Bool)
    (now : Int) (freshId : String) : Except AErr ConvResult :=
  match rt, mro with
  | .completion, none => .error .formatError
  | .completion, some (.modelResponse m) =>
      match ro with
      | none => .error .formatError
      | some rov =>
          if stream then .ok (.streamingGen rov)
          else do
            let m2 ← completionCore rov m (coerceOpt.getD false) st et hp rh now freshId
            .ok (.modelResp m2)
  | .completion, some _ => .ok .noneResult
  | .embedding, none => .ok (.embeddingDelegated ro false st et hp rh)
  | .embedding, some .embeddingResponse => .ok (.embeddingDelegated ro true st et hp rh)
  | .embedding, some _ => .ok .noneResult
  | .image_generation, none => imageBranch ro none hp
  | .image_generation, some (.imageResponse i) => imageBranch ro (some i) hp
  | .image_generation, some _ => .ok .noneResult
  | .audio_transcription, none => transcriptionBranch ro none hp rh
  | .audio_transcription, some (.transcriptionResponse t) =>
      transcriptionBranch ro (some t) hp rh
  | .audio_transcription, some _ => .ok .noneResult
  | .rerank, none => .ok (.rerankDelegated false ro)
  | .rerank, some .rerankResponse => .ok (.rerankDelegated true ro)
  | .rerank, some _ => .ok .noneResult

/-- `convert_to_model_response_object`: header merging into hidden params,
the pre-`try` error-surface check (whose exception propagates as raised),
then the dispatched assembly with every inner exception re-raised as the
single wrapped `"Invalid response object"` assembly error.  `now` and
`freshId` stand for `int(time.time())` and `str(uuid.uuid4())`. -/
def convertToModelResponseObject (responseObject : Option PVal)
    (modelResponseObject : Option MROIn) (responseType : RType) (stream : Bool)
    (startTime endTime : Option Int) (hiddenParams : Option (List (String × PVal)))
    (responseHeaders : Option (List (String × PVal)))
    (convertToolCallToJsonMode : Option Bool) (now : Int) (freshId : String) :
    Except PyErr ConvResult :=
  let hp0 :=
    match hiddenParams with
    | some l => l
    | none => []
  let hp :=
    match responseHeaders with
    | some h => setHeadersInHiddenParams hp0 h
    | none => hp0
  match checkError responseObject with
  | .error e => .error (.uncaught e)
  | .ok (some e) =>
      let args := errorArgsOf e
      .error (.apiError args.1 args.2)
  | .ok none =>
      match convertInner responseObject modelResponseObject responseType stream
          startTime endTime hp responseHeaders convertToolCallToJsonMode now freshId with
      | .ok r => .ok r
      | .error _ => .error .invalidResponse

/-- Whether an embedded computation raised (returned an exception). -/
def isRaised {α : Type} (r : Except AErr α) : Bool :=
  match r with
  | .error _ => true
  | .ok _ => false

/-- Whether no call in the list bears the sentinel pseudo-function name. -/
def noSentinel (l : List CCMTC) : Bool :=
  l.all (fun tc =>
    match tc.function.name with
    | pstr s => s != sentinelFunctionName
    | _ => true)

/-- Whether every call's arguments are a string that parses as JSON. -/
def argsAllParse (l : List CCMTC) : Bool :=
  l.all (fun tc =>
    match tc.function.arguments with
    | pstr s => (jsonLoads s).isSome
    | _ => false)

/-- Whether a target object's class matches the requested response kind
(the per-branch `isinstance` test of the dispatcher). -/
def kindMatches (rt : RType) (t : MROIn) : Bool :=
  match rt, t with
  | .completion, .modelResponse _ => true
  | .embedding, .embeddingResponse => true
  | .image_generation, .imageResponse _ => true
  | .audio_transcription, .transcriptionResponse _ => true
  | .rerank, .rerankResponse => true
  | _, _ => false

/-- A freshly constructed completion target with nothing populated. -/
def exFreshMR : ModelResponseT :=
  { id := pnone, created := pnone, model := pnone, system_fingerprint := pnone,
    choices := [], usage := none, hidden_params := none, response_headers := none,
    response_ms := none, extra := [] }

/-- Argument string of a sentinel call packing two pseudo-calls. -/
def c3Args : String :=
  "\x7b\"tool_uses\": [\x7b\"recipient_name\": \"functions.f1\", \"parameters\": \x7b\"a\": 1\x7d\x7d, \x7b\"recipient_name\": \"f2\", \"parameters\": \x7b\x7d\x7d]\x7d"

/-- First sentinel-named call of the repair example. -/
def c3Call1 : CCMTC :=
  { id := pstr "call1", type := pstr "function",
    function := { name := pstr "multi_tool_use.parallel", arguments := pstr c3Args } }

/-- Second sentinel-named call of the repair example. -/
def c3Call2 : CCMTC :=
  { id := pstr "call2", type := pstr "function",
    function := { name := pstr "multi_tool_use.parallel", arguments := pstr c3Args } }

/-- The list the repair actually produces for `[c3Call1, c3Call2]`: the
first sentinel is expanded in place, but the second sentinel call itself
survives, with its expansion appended after it. -/
def c3Produced : List CCMTC :=
  [ { id := pstr "call1_0", type := pstr "function",
      function := { name := pstr "f1", arguments := pstr "\x7b\"a\": 1\x7d" } },
    { id := pstr "call1_1", type := pstr "function",
      function := { name := pstr "f2", arguments := pstr "\x7b\x7d" } },
    c3Call2,
    { id := pstr "call2_0", type := pstr "function",
      function := { name := pstr "f1", arguments := pstr "\x7b\"a\": 1\x7d" } },
    { id := pstr "call2_1", type := pstr "function",
      function := { name := pstr "f2", arguments := pstr "\x7b\x7d" } } ]

/-- A sentinel-free call whose argument string is not valid JSON. -/
def c8Bad : CCMTC :=
  { id := pstr "x1", type := pstr "function",
    function := { name := pstr "get_weather", arguments := pstr "oops" } }

/-- A sentinel-free call with well-formed JSON arguments. -/
def c8Good : CCMTC :=
  { id := pstr "x2", type := pstr "function",
    function := { name := pstr "get_weather", arguments := pstr "\x7b\x7d" } }

/-- A sentinel-free call whose argument string is not valid JSON (for the
argument-decoding safety property). -/
def c10Bad : CCMTC :=
  { id := pstr "y1", type := pstr "function",
    function := { name := pstr "lookup_info", arguments := pstr "not-json" } }

/-- A payload whose single choice's message has no `role` key at all. -/
def c6Payload : PVal :=
  pdict [("choices", plist [pdict [("message", pdict [("content", pstr "hi")])]])]

/-- A raw choice whose message's `role` is present but `None` (falsy). -/
def c6wChoice : PVal :=
  pdict [("message", pdict [("role", pnone), ("content", pstr "hello")]),
         ("finish_reason", pstr "stop")]

/-- A raw choice carrying a provider-specific finish reason. -/
def c5wChoice : PVal :=
  pdict [("message", pdict [("role", pstr "assistant"), ("content", pstr "ok")]),
         ("finish_reason", pstr "MAX_TOKENS")]

/-- An upstream error object with an explicit code and message. -/
def c1ErrVal : PVal :=
  pdict [("code", pint 400), ("message", pstr "bad request")]

/-- The top-level members of a payload reporting an upstream error. -/
def c1Kvs : List (String × PVal) := [("error", c1ErrVal)]

/-- A raw streaming choice that carries `enhancements`. -/
def c4Choice : PVal :=
  pdict [("message", pdict [("role", pstr "assistant"), ("content", pstr "hi")]),
         ("enhancements", pstr "ocr"), ("finish_reason", pstr "stop")]

/-- A streaming payload whose choice carries `enhancements`. -/
def c4Payload : PVal := pdict [("choices", plist [c4Choice])]

/-- The choices the asynchronous adapter produces for `c4Payload`. -/
def c4AsyncChoices : List StreamingChoicesT :=
  [ { finish_reason := pstr "stop", index := 0,
      delta := { content := pstr "hi", role := pstr "assistant",
                 function_call := pnone, tool_calls := pnone },
      logprobs := pnone, enhancements := pnone } ]

/-- The choices the synchronous adapter produces for `c4Payload`. -/
def c4SyncChoices : List StreamingChoicesT :=
  [ { finish_reason := pstr "stop", index := 0,
      delta := { content := pstr "hi", role := pstr "assistant",
                 function_call := pnone, tool_calls := pnone },
      logprobs := pnone, enhancements := pstr "ocr" } ]

/-- An enhancement-free streaming payload. -/
def c4wPayload : PVal :=
  pdict [("choices", plist [pdict
           [("message", pdict [("role", pstr "assistant"), ("content", pstr "ok")]),
            ("finish_reason", pstr "stop")]]),
         ("id", pstr "id-1")]

/-- The synchronous adapter's result for `c4wPayload`. -/
def c4wRes : SMR :=
  { choices :=
      [ { finish_reason := pstr "stop", index := 0,
          delta := { content := pstr "ok", role := pstr "assistant",
                     function_call := pnone, tool_calls := pnone },
          logprobs := pnone, enhancements := pnone } ],
    usage := none, id := some (pstr "id-1"), created := none,
    system_fingerprint := none, model := none }

/-- A streaming payload whose choice carries a raw tool-call record with no
explicit index. -/
def c7Payload : PVal :=
  pdict [("choices", plist [pdict
           [("message", pdict
              [("role", pstr "assistant"),
               ("tool_calls", plist [pdict
                  [("id", pstr "t1"), ("type", pstr "function"),
                   ("function", pdict [("name", pstr "f"),
                                       ("arguments", pstr "\x7b\x7d")])]])])]])]

/-- The payload as it stands after the asynchronous adapter processed
`c7Payload`: the raw tool-call record was replaced by a typed delta
tool-call object carrying the assigned index. -/
def c7Mutated : PVal :=
  pdict [("choices", plist [pdict
           [("message", pdict
              [("role", pstr "assistant"),
               ("tool_calls", plist [pdtc (pstr "t1") (pstr "function")
                  (pdict [("name", pstr "f"), ("arguments", pstr "\x7b\x7d")])
                  (pint 0)])])]])]

/-- A raw streaming choice whose message has no tool calls. -/
def c7wChoice : PVal := pdict [("message", pdict [("role", pstr "a")])]

/-- Top-level members of a tool-call-free streaming payload. -/
def c7wKvs : List (String × PVal) := [("choices", plist [c7wChoice])]

/-- A tool-call-free streaming payload. -/
def c7wPayload : PVal := pdict c7wKvs

/-- The asynchronous adapter's response for `c7wPayload`. -/
def c7wRes : SMR :=
  { choices :=
      [ { finish_reason := pnone, index := 0,
          delta := { content := pnone, role := pstr "a",
                     function_call := pnone, tool_calls := pnone },
          logprobs := pnone, enhancements := pnone } ],
    usage := none, id := none, created := none,
    system_fingerprint := none, model := none }

set_option maxRecDepth 40000

/-! Helper lemmas about the `Except` monad and association-list updates. -/

theorem ok_bind {ε α β : Type} (a : α) (f : α → Except ε β) :
    (Except.ok a >>= f) = f a := rfl

theorem pure_eq_ok {ε α : Type} (a : α) : (pure a : Except ε α) = .ok a := rfl

theorem error_bind {ε α β : Type} (e : ε) (f : α → Except ε β) :
    ((Except.error e : Except ε α) >>= f) = .error e := rfl

theorem exceptBind_ok {ε α β : Type} {x : Except ε α} {f : α → Except ε β} {b : β}
    (h : (x >>= f) = .ok b) : ∃ a, x = .ok a ∧ f a = .ok b := by
  cases x with
  | error e => rw [error_bind] at h; exact Except.noConfusion h
  | ok a => exact ⟨a, rfl, h⟩

theorem lookup_some_any {kvs : List (String × PVal)} {k : String} {v : PVal}
    (h : kvs.lookup k = some v) : kvs.any (fun kv => kv.1 == k) = true := by
  induction kvs with
  | nil => simp [List.lookup] at h
  | cons kv rest ih =>
      rcases kv with ⟨k0, v0⟩
      by_cases hk : k = k0
      · subst hk; simp
      · have hbeq : (k == k0) = false := beq_eq_false_iff_ne.mpr hk
        rw [List.lookup, hbeq] at h
        simp only [List.any_cons]
        rw [ih h]
        simp

theorem lookup_pdictSet_self (l : List (String × PVal)) (k : String) (v : PVal) :
    (pdictSet l k v).lookup k = some v := by
  induction l with
  | nil => simp [pdictSet, List.lookup]
  | cons kv rest ih =>
      rcases kv with ⟨k0, v0⟩
      by_cases h : k0 = k
      · subst h
        simp [pdictSet, List.lookup]
      · simp [pdictSet, beq_eq_false_iff_ne.mpr h, List.lookup,
              beq_eq_false_iff_ne.mpr (Ne.symm h), ih]

theorem lookup_pdictSet_ne (l : List (String × PVal)) (k k' : String) (v : PVal)
    (h : k' ≠ k) : (pdictSet l k v).lookup k' = l.lookup k' := by
  induction l with
  | nil =>
      have h2 : (k' == k) = false := beq_eq_false_iff_ne.mpr h
      simp [pdictSet, List.lookup, h2]
  | cons kv rest ih =>
      rcases kv with ⟨k0, v0⟩
      by_cases hk : k0 = k
      · subst hk
        have h2 : (k' == k0) = false := beq_eq_false_iff_ne.mpr h
        simp [pdictSet, List.lookup, h2]
      · have h1 : (k0 == k) = false := beq_eq_false_iff_ne.mpr hk
        simp [pdictSet, h1, List.lookup, ih]

theorem pdictSet_keys {l : List (String × PVal)} {k : String} {w : PVal}
    (v : PVal) (h : l.lookup k = some w) :
    (pdictSet l k v).map Prod.fst = l.map Prod.fst := by
  induction l with
  | nil => simp [List.lookup] at h
  | cons kv rest ih =>
      rcases kv with ⟨k0, v0⟩
      by_cases hk : k0 = k
      · subst hk; simp [pdictSet]
      · have h1 : (k0 == k) = false := beq_eq_false_iff_ne.mpr hk
        have h2 : (k == k0) = false := beq_eq_false_iff_ne.mpr (Ne.symm hk)
        rw [List.lookup, h2] at h
        rw [pdictSet, h1]
        simp [ih h]

theorem pdictSet_same {l : List (String × PVal)} {k : String} {v : PVal}
    (h : l.lookup k = some v) : pdictSet l k v = l := by
  induction l with
  | nil => simp [List.lookup] at h
  | cons kv rest ih =>
      rcases kv with ⟨k0, v0⟩
      by_cases hk : k0 = k
      · subst hk
        simp [List.lookup] at h
        simp [pdictSet, h]
      · have h1 : (k0 == k) = false := beq_eq_false_iff_ne.mpr hk
        have h2 : (k == k0) = false := beq_eq_false_iff_ne.mpr (Ne.symm hk)
        rw [List.lookup, h2] at h
        rw [pdictSet, h1]
        simp [ih h]

/-- C2: `map_finish_reason` is a total, deterministic map on strings: it
returns `"stop"` for the seven recognized stop codes, `"length"` for the
two token-limit codes, `"content_filter"` for the four safety codes,
`"tool_calls"` for `"tool_use"`, and every other string unchanged;
matching is exact, case-sensitive string equality. -/
theorem C2_finish_reason_mapping :
    (map_finish_reason "stop_sequence" = "stop" ∧
     map_finish_reason "COMPLETE" = "stop" ∧
     map_finish_reason "eos_token" = "stop" ∧
     map_finish_reason "FINISH_REASON_UNSPECIFIED" = "stop" ∧
     map_finish_reason "STOP" = "stop" ∧
     map_finish_reason "end_turn" = "stop" ∧
     map_finish_reason "ERROR" = "stop" ∧
     map_finish_reason "MAX_TOKENS" = "length" ∧
     map_finish_reason "max_tokens" = "length" ∧
     map_finish_reason "ERROR_TOXIC" = "content_filter" ∧
     map_finish_reason "SAFETY" = "content_filter" ∧
     map_finish_reason "RECITATION" = "content_filter" ∧
     map_finish_reason "content_filtered" = "content_filter" ∧
     map_finish_reason "tool_use" = "tool_calls") ∧
    (∀ s : String,
      s ∉ ["stop_sequence", "COMPLETE", "eos_token", "FINISH_REASON_UNSPECIFIED",
           "STOP", "end_turn", "ERROR", "MAX_TOKENS", "max_tokens", "ERROR_TOXIC",
           "SAFETY", "RECITATION", "content_filtered", "tool_use"] →
      map_finish_reason s = s) := by
  constructor
  · exact ⟨rfl, rfl, rfl, rfl, rfl, rfl, rfl, rfl, rfl, rfl, rfl, rfl, rfl, rfl⟩
  · intro s hs
    simp only [List.mem_cons, List.not_mem_nil, or_false, not_or] at hs
    obtain ⟨h1, h2, h3, h4, h5, h6, h7, h8, h9, h10, h11, h12, h13, h14⟩ := hs
    simp [map_finish_reason, h1, h2, h3, h4, h5, h6, h7, h8, h9, h10, h11, h12, h13, h14]

/-- Witness for C2: an unrecognized reason passes through unchanged. -/
theorem C2_witness : map_finish_reason "os_unknown" = "os_unknown" :=
  C2_finish_reason_mapping.2 "os_unknown" (by decide)

/-- C3: evaluation of the repair at a list of two sentinel calls, `c3Call1`
and `c3Call2`, each packing two pseudo-calls.  Because the splice loop
advances its shift by the full replacement length rather than by the net
growth (length minus one), the second sentinel call survives in the output
(with its expansion appended after it), so a call named
`"multi_tool_use.parallel"` remains — against both the claim and the
spec's stated N−1 shift. -/
theorem C3_two_sentinels_eval :
    handleInvalidParallelToolCalls (some [c3Call1, c3Call2]) = .ok (some c3Produced) ∧
    c3Produced.any (fun tc =>
      match tc.function.name with
      | pstr s => s == sentinelFunctionName
      | _ => false) = true :=
  ⟨rfl, rfl⟩

theorem collectReplacements_raises :
    ∀ (l : List CCMTC) (i : Nat) (tc : CCMTC) (s : String),
      tc ∈ l → tc.function.arguments = pstr s → jsonLoads s = none →
      ∃ e, collectReplacements i l = .error e := by
  intro l
  induction l with
  | nil => intro i tc s hmem; exact absurd hmem (List.not_mem_nil tc)
  | cons a rest ih =>
      intro i tc s hmem hs hbad
      rcases List.mem_cons.mp hmem with heq | htail
      · subst heq
        refine ⟨.jsonDecodeError, ?_⟩
        simp [collectReplacements, pyJsonLoads, hs, hbad, error_bind]
      · cases hload : pyJsonLoads a.function.arguments with
        | error e =>
            exact ⟨e, by simp [collectReplacements, hload, error_bind]⟩
        | ok j =>
            cases hsent : (match a.function.name with
              | pstr t => t == sentinelFunctionName
              | _ => false) with
            | false =>
                obtain ⟨e, he⟩ := ih (i + 1) tc s htail hs hbad
                exact ⟨e, by simp [collectReplacements, hload, ok_bind, hsent, he]⟩
            | true =>
                cases hexp : expandSentinelCall a j with
                | error e =>
                    exact ⟨e, by
                      simp [collectReplacements, hload, ok_bind, hsent, hexp, error_bind]⟩
                | ok repl =>
                    obtain ⟨e, he⟩ := ih (i + 1) tc s htail hs hbad
                    exact ⟨e, by
                      simp [collectReplacements, hload, ok_bind, hsent, hexp, he, error_bind]⟩

/-- C10: the repair decodes every call's argument string with `json.loads`
before looking at that call's name, so any list containing a call whose
arguments fail to parse makes the whole repair raise — even when no call
is named `"multi_tool_use.parallel"`; the sentinel-free no-op behaviour
holds only under the precondition that every argument string parses. -/
theorem C10_loads_every_argument :
    ∀ (l : List CCMTC) (tc : CCMTC) (s : String),
      tc ∈ l → tc.function.arguments = pstr s → jsonLoads s = none →
      isRaised (handleInvalidParallelToolCalls (some l)) = true := by
  intro l tc s hmem hs hbad
  obtain ⟨e, he⟩ := collectReplacements_raises l 0 tc s hmem hs hbad
  simp [handleInvalidParallelToolCalls, he, error_bind, isRaised]

/-- Witness for C10: a single sentinel-free call with unparseable
arguments makes the repair raise. -/
theorem C10_witness :
    isRaised (handleInvalidParallelToolCalls (some [c10Bad])) = true :=
  C10_loads_every_argument [c10Bad] c10Bad "not-json"
    (List.mem_singleton.mpr rfl) rfl rfl

/-- Counterexample for C8: a sentinel-free list whose only call carries an
argument string that is not valid JSON is not returned unchanged — the
repair raises instead of returning the list. -/
theorem C8_counterexample :
    noSentinel [c8Bad] = true ∧
    handleInvalidParallelToolCalls (some [c8Bad]) ≠ .ok (some [c8Bad]) := by
  refine ⟨rfl, ?_⟩
  intro h
  have he : handleInvalidParallelToolCalls (some [c8Bad]) = .error .jsonDecodeError := rfl
  rw [he] at h
  exact Except.noConfusion h

theorem collectReplacements_none :
    ∀ (l : List CCMTC) (i : Nat), noSentinel l = true → argsAllParse l = true →
      collectReplacements i l = .ok [] := by
  intro l
  induction l with
  | nil => intro i _ _; rfl
  | cons a rest ih =>
      intro i h1 h2
      rw [noSentinel, List.all_cons, Bool.and_eq_true] at h1
      rw [argsAllParse, List.all_cons, Bool.and_eq_true] at h2
      obtain ⟨h1a, h1rest⟩ := h1
      obtain ⟨h2a, h2rest⟩ := h2
      cases harg : a.function.arguments with
      | pstr s =>
          rw [harg] at h2a
          have h2b : (jsonLoads s).isSome = true := h2a
          cases hload : jsonLoads s with
          | none => rw [hload] at h2b; exact Bool.noConfusion h2b
          | some j =>
              have hsent : (match a.function.name with
                  | pstr t => t == sentinelFunctionName
                  | _ => false) = false := by
                cases hname : a.function.name with
                | pstr t =>
                    rw [hname] at h1a
                    have h1b : (t != sentinelFunctionName) = true := h1a
                    exact beq_eq_false_iff_ne.mpr (bne_iff_ne.mp h1b)
                | pnone => rfl
                | pbool b => rfl
                | pint n => rfl
                | plist l2 => rfl
                | pdict d => rfl
                | pdtc x1 x2 x3 x4 => rfl
              have := ih (i + 1) h1rest h2rest
              simp [collectReplacements, pyJsonLoads, harg, hload, ok_bind, hsent, this]
      | pnone => rw [harg] at h2a; exact Bool.noConfusion h2a
      | pbool b => rw [harg] at h2a; exact Bool.noConfusion h2a
      | pint n => rw [harg] at h2a; exact Bool.noConfusion h2a
      | plist l2 => rw [harg] at h2a; exact Bool.noConfusion h2a
      | pdict d => rw [harg] at h2a; exact Bool.noConfusion h2a
      | pdtc x1 x2 x3 x4 => rw [harg] at h2a; exact Bool.noConfusion h2a

/-- C8 (amended): when no call bears the sentinel name AND every call's
arguments are a string that parses as JSON, the repair returns the exact
input list unchanged; without the parse precondition the repair can raise
instead (see the counterexample). -/
theorem C8_no_sentinel_identity :
    ∀ (l : List CCMTC), noSentinel l = true → argsAllParse l = true →
      handleInvalidParallelToolCalls (some l) = .ok (some l) := by
  intro l h1 h2
  simp [handleInvalidParallelToolCalls, collectReplacements_none l 0 h1 h2, ok_bind,
        spliceReplacements]

/-- Witness for C8: a well-formed sentinel-free list is returned as-is. -/
theorem C8_witness :
    noSentinel [c8Good] = true ∧ argsAllParse [c8Good] = true ∧
    handleInvalidParallelToolCalls (some [c8Good]) = .ok (some [c8Good]) :=
  ⟨rfl, rfl, C8_no_sentinel_identity [c8Good] rfl rfl⟩

/-- C1: whenever the payload carries a non-`None` `error` member, assembly
raises before any per-kind work — for every response type, stream setting
and remaining argument — carrying the status code and message assembled
from the error value: status `error["code"]` when the error is a dict with
that key (422 otherwise), message `error["message"]` as a string
(JSON-encoded when that field is itself a dict, the default otherwise). -/
theorem C1_error_surface :
    ∀ (kvs : List (String × PVal)) (e : PVal) (mro : Option MROIn) (rt : RType)
      (stream : Bool) (st et : Option Int) (hps rhdrs : Option (List (String × PVal)))
      (cj : Option Bool) (now : Int) (fid : String),
      kvs.lookup "error" = some e → e ≠ pnone →
      (convertToModelResponseObject (some (pdict kvs)) mro rt stream st et hps rhdrs
          cj now fid =
        .error (.apiError (errorArgsOf e).1 (errorArgsOf e).2)) ∧
      (∀ d c, e = pdict d → d.lookup "code" = some c → (errorArgsOf e).1 = c) ∧
      (∀ d, e = pdict d → d.lookup "code" = none → (errorArgsOf e).1 = pint 422) ∧
      (∀ d md, e = pdict d → d.lookup "message" = some (pdict md) →
        (errorArgsOf e).2 = jsonDumps (pdict md)) ∧
      (∀ d s, e = pdict d → d.lookup "message" = some (pstr s) →
        (errorArgsOf e).2 = s) := by
  intro kvs e mro rt stream st et hps rhdrs cj now fid hl hnn
  have hany : (kvs.any (fun kv => kv.1 == "error")) = true := lookup_some_any hl
  have hchk : checkError (some (pdict kvs)) = .ok (some e) := by
    cases e with
    | pnone => exact absurd rfl hnn
    | pbool b => simp [checkError, pyIn, hany, pyGetItem, hl, ok_bind, pure_eq_ok]
    | pint n => simp [checkError, pyIn, hany, pyGetItem, hl, ok_bind, pure_eq_ok]
    | pstr s => simp [checkError, pyIn, hany, pyGetItem, hl, ok_bind, pure_eq_ok]
    | plist l => simp [checkError, pyIn, hany, pyGetItem, hl, ok_bind, pure_eq_ok]
    | pdict d => simp [checkError, pyIn, hany, pyGetItem, hl, ok_bind, pure_eq_ok]
    | pdtc a b c d => simp [checkError, pyIn, hany, pyGetItem, hl, ok_bind, pure_eq_ok]
  refine ⟨?_, ?_, ?_, ?_, ?_⟩
  · simp [convertToModelResponseObject, hchk]
  · intro d c hd hcode; subst hd; simp [errorArgsOf, hcode]
  · intro d hd hcode; subst hd; simp [errorArgsOf, hcode]
  · intro d md hd hmsg; subst hd; simp [errorArgsOf, hmsg]
  · intro d s hd hmsg; subst hd; simp [errorArgsOf, hmsg, pyStr]

/-- Witness for C1: `error = \x7bcode: 400, message: "bad request"\x7d`
raises with status code 400 and message `"bad request"` (here under the
embedding response type with streaming requested). -/
theorem C1_witness :
    c1Kvs.lookup "error" = some c1ErrVal ∧
    convertToModelResponseObject (some (pdict c1Kvs)) none .embedding true none none
      none none none 0 "uuid-0" = .error (.apiError (pint 400) "bad request") := by
  refine ⟨rfl, ?_⟩
  have h := (C1_error_surface c1Kvs c1ErrVal none .embedding true none none none none
    none 0 "uuid-0" rfl (by intro hh; exact PVal.noConfusion hh)).1
  exact h

/-- C9: when the requested response kind and the class of the supplied
non-`None` target disagree, no dispatch branch matches and the function
returns `None` without raising (provided the payload passes the error
check) — the caller receives neither a canonical response nor an error. -/
theorem C9_mismatched_target_returns_none :
    ∀ (ro : Option PVal) (t : MROIn) (rt : RType) (stream : Bool) (st et : Option Int)
      (hps rhdrs : Option (List (String × PVal))) (cj : Option Bool) (now : Int)
      (fid : String),
      checkError ro = .ok none → kindMatches rt t = false →
      convertToModelResponseObject ro (some t) rt stream st et hps rhdrs cj now fid =
        .ok .noneResult := by
  intro ro t rt stream st et hps rhdrs cj now fid hchk hmatch
  cases rt <;> cases t <;>
    simp_all [convertToModelResponseObject, convertInner, kindMatches]

/-- Witness for C9: response type `"completion"` with an
`EmbeddingResponse` target returns `None`. -/
theorem C9_witness :
    convertToModelResponseObject (some (pdict [("x", pint 1)])) (some .embeddingResponse)
      .completion false none none none none none 0 "uuid-9" = .ok .noneResult :=
  C9_mismatched_target_returns_none (some (pdict [("x", pint 1)])) .embeddingResponse
    .completion false none none none none none 0 "uuid-9" rfl rfl

/-- C5: for a non-streaming completion choice not taken by the JSON-mode
coercion branch, the assembled finish reason is `choice["finish_reason"]`,
falling back to `choice["finish_details"]` when the former is `None`
(falling back to `"stop"` when that one is falsy in turn), and the chosen
value is passed through the Finish-Reason Mapper before being stored on
the `Choices` entry. -/
theorem C5_finish_reason_fallback :
    ∀ (coerce : Bool) (idx : Nat) (choice msgVal : PVal)
      (tcs : Option (List CCMTC)) (content role fc audio fr0 lp enh : PVal),
      pyGetItem choice "message" = .ok msgVal →
      toolCallsOfChoice msgVal = .ok tcs →
      jsonModeTaken coerce tcs = false →
      pyGetD msgVal "content" = .ok content →
      pyGetItem msgVal "role" = .ok role →
      pyGetD msgVal "function_call" = .ok fc →
      pyGetD msgVal "audio" = .ok audio →
      pyGetD choice "finish_reason" = .ok fr0 →
      pyGetD choice "logprobs" = .ok lp →
      pyGetD choice "enhancements" = .ok enh →
      (fr0 ≠ pnone →
        convertChoice coerce idx choice = .ok
          { finish_reason := mapFinishReasonPVal fr0, index := idx,
            message :=
              { content := content,
                role := if truthy role then role else pstr "assistant",
                function_call := fc, tool_calls := tcs, audio := audio },
            logprobs := lp, enhancements := enh }) ∧
      (∀ fd, fr0 = pnone → pyGetD choice "finish_details" = .ok fd →
        convertChoice coerce idx choice = .ok
          { finish_reason := mapFinishReasonPVal (if truthy fd then fd else pstr "stop"),
            index := idx,
            message :=
              { content := content,
                role := if truthy role then role else pstr "assistant",
                function_call := fc, tool_calls := tcs, audio := audio },
            logprobs := lp, enhancements := enh }) := by
  intro coerce idx choice msgVal tcs content role fc audio fr0 lp enh
    hm ht hjm hcon hrole hfc haud hfr hlp henh
  refine ⟨?_, ?_⟩
  · intro hne
    cases fr0 with
    | pnone => exact absurd rfl hne
    | pbool b =>
        simp [convertChoice, hm, ht, hjm, hcon, hrole, hfc, haud, hfr, hlp, henh,
              ok_bind, pure_eq_ok]
    | pint n =>
        simp [convertChoice, hm, ht, hjm, hcon, hrole, hfc, haud, hfr, hlp, henh,
              ok_bind, pure_eq_ok]
    | pstr s =>
        simp [convertChoice, hm, ht, hjm, hcon, hrole, hfc, haud, hfr, hlp, henh,
              ok_bind, pure_eq_ok]
    | plist l =>
        simp [convertChoice, hm, ht, hjm, hcon, hrole, hfc, haud, hfr, hlp, henh,
              ok_bind, pure_eq_ok]
    | pdict d =>
        simp [convertChoice, hm, ht, hjm, hcon, hrole, hfc, haud, hfr, hlp, henh,
              ok_bind, pure_eq_ok]
    | pdtc a b c d =>
        simp [convertChoice, hm, ht, hjm, hcon, hrole, hfc, haud, hfr, hlp, henh,
              ok_bind, pure_eq_ok]
  · intro fd hfr0 hfd
    subst hfr0
    simp [convertChoice, hm, ht, hjm, hcon, hrole, hfc, haud, hfr, hfd, hlp, henh,
          ok_bind, pure_eq_ok]

/-- Witness for C5: a choice with `finish_reason = "MAX_TOKENS"` is stored
as `"length"`. -/
theorem C5_witness :
    convertChoice false 0 c5wChoice = .ok
      { finish_reason := pstr "length", index := 0,
        message := { content := pstr "ok", role := pstr "assistant",
                     function_call := pnone, tool_calls := none, audio := pnone },
        logprobs := pnone, enhancements := pnone } := by
  have h := (C5_finish_reason_fallback false 0 c5wChoice
    (pdict [("role", pstr "assistant"), ("content", pstr "ok")]) none
    (pstr "ok") (pstr "assistant") pnone pnone (pstr "MAX_TOKENS") pnone pnone
    rfl rfl rfl rfl rfl rfl rfl rfl rfl rfl).1 (by intro hh; exact PVal.noConfusion hh)
  exact h

/-- Counterexample for C6: a choice whose raw message has no `role` key at
all is not assembled with the `"assistant"` default — the whole conversion
raises the wrapped assembly error instead (the source reads the role with
a direct subscript, so the absent key is a `KeyError`). -/
theorem C6_counterexample :
    (([("content", pstr "hi")] : List (String × PVal)).lookup "role" = none) ∧
    convertToModelResponseObject (some c6Payload) (some (.modelResponse exFreshMR))
      .completion false none none none none none 0 "uuid-6" = .error .invalidResponse :=
  ⟨rfl, rfl⟩

/-- C6 (amended): for a choice not taken by the JSON-mode branch, when the
raw message's `role` key is present, the constructed Message's role is the
raw value if truthy and `"assistant"` otherwise; when the `role` key is
absent, no Message is constructed at all — the per-choice assembly cannot
succeed (a `KeyError` propagates and is re-raised as the wrapped assembly
error). -/
theorem C6_role_default :
    ∀ (coerce : Bool) (idx : Nat) (choice : PVal) (md : List (String × PVal))
      (tcs : Option (List CCMTC)) (c : ChoicesT),
      pyGetItem choice "message" = .ok (pdict md) →
      toolCallsOfChoice (pdict md) = .ok tcs →
      jsonModeTaken coerce tcs = false →
      convertChoice coerce idx choice = .ok c →
      (∀ role, md.lookup "role" = some role →
        c.message.role = (if truthy role then role else pstr "assistant")) ∧
      (md.lookup "role" = none → False) := by
  intro coerce idx choice md tcs c hm ht hjm hc
  simp only [convertChoice] at hc
  rw [hm, ok_bind, ht, ok_bind] at hc
  simp only [hjm, Bool.false_eq_true, if_false] at hc
  obtain ⟨content, hcon, hc⟩ := exceptBind_ok hc
  obtain ⟨role, hrole, hc⟩ := exceptBind_ok hc
  constructor
  · intro role0 hsome
    obtain ⟨fc, hfc, hc⟩ := exceptBind_ok hc
    obtain ⟨audio, haud, hc⟩ := exceptBind_ok hc
    obtain ⟨fr0, hfr0, hc⟩ := exceptBind_ok hc
    simp only [pyGetItem, hsome] at hrole
    have hrr := Except.ok.inj hrole
    cases fr0 <;>
      (repeat obtain ⟨_, _, hc⟩ := exceptBind_ok hc) <;>
      (rw [← Except.ok.inj hc]; simp [hrr])
  · intro hnone
    simp only [pyGetItem, hnone] at hrole
    exact Except.noConfusion hrole

/-- Witness for C6 (amended): a present-but-`None` role is stored as
`"assistant"`. -/
theorem C6_witness :
    (([("role", pnone), ("content", pstr "hello")] : List (String × PVal)).lookup
      "role" = some pnone) ∧
    ((convertChoice false 0 c6wChoice).map (fun c => c.message.role)) =
      .ok (pstr "assistant") := by
  refine ⟨rfl, ?_⟩
  have he : convertChoice false 0 c6wChoice = .ok
      { finish_reason := pstr "stop", index := 0,
        message := { content := pstr "hello", role := pstr "assistant",
                     function_call := pnone, tool_calls := none, audio := pnone },
        logprobs := pnone, enhancements := pnone } := rfl
  have h := (C6_role_default false 0 c6wChoice
    [("role", pnone), ("content", pstr "hello")] none _ rfl rfl rfl he).1 pnone rfl
  rw [he]
  exact congrArg Except.ok
    (h.trans (show (if truthy pnone then pnone else pstr "assistant") = pstr "assistant"
      from rfl))

/-! Inversion and preservation lemmas for the streaming adapters. -/

theorem pyGetItem_ok_pdict {v : PVal} {k : String} {x : PVal}
    (h : pyGetItem v k = .ok x) :
    ∃ kvs, v = pdict kvs ∧ kvs.lookup k = some x := by
  cases v with
  | pdict kvs =>
      refine ⟨kvs, rfl, ?_⟩
      simp only [pyGetItem] at h
      cases hl : kvs.lookup k with
      | none => rw [hl] at h; exact Except.noConfusion h
      | some w => rw [hl] at h; exact congrArg some (Except.ok.inj h)
  | pnone => exact Except.noConfusion h
  | pbool b => exact Except.noConfusion h
  | pint n => exact Except.noConfusion h
  | pstr s => exact Except.noConfusion h
  | plist l => exact Except.noConfusion h
  | pdtc a b c d => exact Except.noConfusion h

theorem pyGetD_ok_pdict {v : PVal} {k : String} {x : PVal}
    (h : pyGetD v k = .ok x) :
    ∃ kvs, v = pdict kvs ∧ x = (kvs.lookup k).getD pnone := by
  cases v with
  | pdict kvs => exact ⟨kvs, rfl, (Except.ok.inj h).symm⟩
  | pnone => exact Except.noConfusion h
  | pbool b => exact Except.noConfusion h
  | pint n => exact Except.noConfusion h
  | pstr s => exact Except.noConfusion h
  | plist l => exact Except.noConfusion h
  | pdtc a b c d => exact Except.noConfusion h

theorem pyGetItem_pdict_lookup {kvs : List (String × PVal)} {k : String} {x : PVal}
    (h : pyGetItem (pdict kvs) k = .ok x) : kvs.lookup k = some x := by
  simp only [pyGetItem] at h
  cases hl : kvs.lookup k with
  | none => rw [hl] at h; exact Except.noConfusion h
  | some w => rw [hl] at h; exact congrArg some (Except.ok.inj h)

theorem reindexOne_pdict (i : Nat) (d : List (String × PVal)) :
    ∃ a b c e, reindexOne i (pdict d) = .ok (pdtc a b c e) := by
  cases hmem : d.any (fun kv => kv.1 == "index") with
  | true =>
      refine ⟨(d.lookup "id").getD pnone, (d.lookup "type").getD pnone,
              (d.lookup "function").getD pnone, (d.lookup "index").getD pnone, ?_⟩
      simp [reindexOne, pyIn, hmem, ok_bind, dtcOfVal]
  | false =>
      refine ⟨((pdictSet d "index" (pint (Int.ofNat i))).lookup "id").getD pnone,
              ((pdictSet d "index" (pint (Int.ofNat i))).lookup "type").getD pnone,
              ((pdictSet d "index" (pint (Int.ofNat i))).lookup "function").getD pnone,
              ((pdictSet d "index" (pint (Int.ofNat i))).lookup "index").getD pnone, ?_⟩
      simp [reindexOne, pyIn, hmem, ok_bind, dtcOfVal]

theorem deltaStep_rel (tcV tc2 : PVal) (h : deltaToolCallsInit tcV = .ok tc2) :
    (asyncToolCallStep tcV = .ok none ∧ tc2 = tcV) ∨
    (asyncToolCallStep tcV = .ok (some tc2) ∧
      ∃ hd tl, tc2 = plist (hd :: tl) ∧ ∃ a b c e, hd = pdtc a b c e) := by
  cases tcV with
  | plist l =>
      cases l with
      | nil => exact Or.inl ⟨rfl, (Except.ok.inj h).symm⟩
      | cons t rest =>
          cases t with
          | pdict d =>
              simp only [deltaToolCallsInit] at h
              obtain ⟨typed, htyped, h⟩ := exceptBind_ok h
              have h2 := Except.ok.inj h
              refine Or.inr ⟨?_, ?_⟩
              · rw [← h2]
                simp [asyncToolCallStep, htyped, ok_bind, pure_eq_ok]
              · simp only [reindexAndType] at htyped
                obtain ⟨t2, ht2, htyped⟩ := exceptBind_ok htyped
                obtain ⟨rest2, hrest2, htyped⟩ := exceptBind_ok htyped
                obtain ⟨a, b, c, e, ht2v⟩ := reindexOne_pdict 0 d
                rw [ht2v] at ht2
                have ht2i := Except.ok.inj ht2
                have h3 := Except.ok.inj htyped
                refine ⟨pdtc a b c e, rest2, ?_, a, b, c, e, rfl⟩
                rw [← h2, ← h3, ht2i]
          | pnone => exact Or.inl ⟨rfl, (Except.ok.inj h).symm⟩
          | pbool b => exact Or.inl ⟨rfl, (Except.ok.inj h).symm⟩
          | pint n => exact Or.inl ⟨rfl, (Except.ok.inj h).symm⟩
          | pstr s => exact Or.inl ⟨rfl, (Except.ok.inj h).symm⟩
          | plist l2 => exact Or.inl ⟨rfl, (Except.ok.inj h).symm⟩
          | pdtc a b c e => exact Or.inl ⟨rfl, (Except.ok.inj h).symm⟩
  | pnone => exact Or.inl ⟨rfl, (Except.ok.inj h).symm⟩
  | pbool b => exact Or.inl ⟨rfl, (Except.ok.inj h).symm⟩
  | pint n => exact Or.inl ⟨rfl, (Except.ok.inj h).symm⟩
  | pstr s => exact Or.inl ⟨rfl, (Except.ok.inj h).symm⟩
  | pdict d => exact Or.inl ⟨rfl, (Except.ok.inj h).symm⟩
  | pdtc a b c e => exact Or.inl ⟨rfl, (Except.ok.inj h).symm⟩

theorem streamFinishReason_congr (c c2 : PVal)
    (h1 : pyGetD c2 "finish_reason" = pyGetD c "finish_reason")
    (h2 : pyGetD c2 "finish_details" = pyGetD c "finish_details") :
    streamFinishReason c2 = streamFinishReason c := by
  simp only [streamFinishReason, h1, h2]

theorem streamingChoice_sync_to_async (i : Nat) (c : PVal) (sc : StreamingChoicesT)
    (h : streamingChoiceSync i c = .ok sc) :
    ∃ c2, streamingChoiceAsync i c = .ok ({ sc with enhancements := pnone }, c2) := by
  simp only [streamingChoiceSync] at h
  obtain ⟨msgV, hm, h⟩ := exceptBind_ok h
  obtain ⟨content, hcon, h⟩ := exceptBind_ok h
  obtain ⟨role, hrole, h⟩ := exceptBind_ok h
  obtain ⟨fc, hfc, h⟩ := exceptBind_ok h
  obtain ⟨tcV, htcV, h⟩ := exceptBind_ok h
  obtain ⟨delta, hdelta, h⟩ := exceptBind_ok h
  obtain ⟨fr, hfr, h⟩ := exceptBind_ok h
  obtain ⟨lp, hlp, h⟩ := exceptBind_ok h
  obtain ⟨enh, henh, h⟩ := exceptBind_ok h
  have hfin := Except.ok.inj h
  simp only [deltaInit] at hdelta
  obtain ⟨tc2, htc2, hdelta⟩ := exceptBind_ok hdelta
  have hdelta_eq := Except.ok.inj hdelta
  rcases deltaStep_rel tcV tc2 htc2 with ⟨hstep, htceq⟩ |
    ⟨hstep, hd, tl, htc2eq, a, b, ce, e, hhd⟩
  · refine ⟨c, ?_⟩
    simp only [streamingChoiceAsync]
    rw [hm, ok_bind, htcV, ok_bind, hstep, ok_bind]
    simp only []
    rw [hcon, ok_bind, hrole, ok_bind, hfc, ok_bind, htcV, ok_bind]
    simp only [deltaInit]
    rw [htc2, ok_bind, hdelta_eq, ok_bind]
    rw [hfr, ok_bind, hlp, ok_bind]
    rw [← hfin]
  · subst hhd
    subst htc2eq
    obtain ⟨md, hmsgeq, htcval⟩ := pyGetD_ok_pdict htcV
    obtain ⟨cd, hceq, hlkmsg⟩ := pyGetItem_ok_pdict hm
    subst hmsgeq
    subst hceq
    refine ⟨pdict (pdictSet cd "message"
      (pdict (pdictSet md "tool_calls" (plist (pdtc a b ce e :: tl))))), ?_⟩
    simp only [streamingChoiceAsync]
    rw [hm, ok_bind, htcV, ok_bind, hstep, ok_bind]
    simp only []
    have e1 : pyGetD (pdict (pdictSet md "tool_calls" (plist (pdtc a b ce e :: tl))))
        "content" = pyGetD (pdict md) "content" := by
      simp [pyGetD, lookup_pdictSet_ne md "tool_calls" "content" _ (by decide)]
    have e2 : pyGetItem (pdict (pdictSet md "tool_calls" (plist (pdtc a b ce e :: tl))))
        "role" = pyGetItem (pdict md) "role" := by
      simp [pyGetItem, lookup_pdictSet_ne md "tool_calls" "role" _ (by decide)]
    have e3 : pyGetD (pdict (pdictSet md "tool_calls" (plist (pdtc a b ce e :: tl))))
        "function_call" = pyGetD (pdict md) "function_call" := by
      simp [pyGetD, lookup_pdictSet_ne md "tool_calls" "function_call" _ (by decide)]
    have e4 : pyGetD (pdict (pdictSet md "tool_calls" (plist (pdtc a b ce e :: tl))))
        "tool_calls" = .ok (plist (pdtc a b ce e :: tl)) := by
      simp [pyGetD, lookup_pdictSet_self]
    rw [e1, hcon, ok_bind, e2, hrole, ok_bind, e3, hfc, ok_bind, e4, ok_bind]
    simp only [deltaInit]
    have e5 : deltaToolCallsInit (plist (pdtc a b ce e :: tl)) =
        .ok (plist (pdtc a b ce e :: tl)) := rfl
    rw [e5, ok_bind, hdelta_eq, ok_bind]
    have efr : streamFinishReason (pdict (pdictSet cd "message"
        (pdict (pdictSet md "tool_calls" (plist (pdtc a b ce e :: tl)))))) =
        streamFinishReason (pdict cd) := by
      refine streamFinishReason_congr _ _ ?_ ?_
      · simp [pyGetD, lookup_pdictSet_ne cd "message" "finish_reason" _ (by decide)]
      · simp [pyGetD, lookup_pdictSet_ne cd "message" "finish_details" _ (by decide)]
    have elp : pyGetD (pdict (pdictSet cd "message"
        (pdict (pdictSet md "tool_calls" (plist (pdtc a b ce e :: tl))))))
        "logprobs" = pyGetD (pdict cd) "logprobs" := by
      simp [pyGetD, lookup_pdictSet_ne cd "message" "logprobs" _ (by decide)]
    rw [efr, hfr, ok_bind, elp, hlp, ok_bind]
    rw [← hfin]

theorem any_keys (l : List (String × PVal)) (k : String) :
    l.any (fun kv => kv.1 == k) = (l.map Prod.fst).any (fun x => x == k) := by
  induction l with
  | nil => rfl
  | cons kv rest ih => simp only [List.any_cons, List.map_cons, ih]

theorem pyIn_set_preserved {cd : List (String × PVal)} {k0 : String} {w : PVal}
    (v : PVal) (h : cd.lookup k0 = some w) (k : String) :
    pyIn k (pdict (pdictSet cd k0 v)) = pyIn k (pdict cd) := by
  simp only [pyIn]
  rw [any_keys, any_keys, pdictSet_keys v h]

theorem pyGetItem_set_ne {cd : List (String × PVal)} (k0 : String) (v : PVal)
    (k : String) (h : k ≠ k0) :
    pyGetItem (pdict (pdictSet cd k0 v)) k = pyGetItem (pdict cd) k := by
  simp only [pyGetItem, lookup_pdictSet_ne cd k0 k v h]

theorem usageFromPayload_set_preserved {cd : List (String × PVal)} {w : PVal}
    (v : PVal) (h : cd.lookup "choices" = some w) :
    usageFromPayload (pdict (pdictSet cd "choices" v)) = usageFromPayload (pdict cd) := by
  simp only [usageFromPayload, pyIn_set_preserved v h,
             pyGetItem_set_ne "choices" v "usage" (by decide)]

theorem copyKey_set_preserved {cd : List (String × PVal)} {w : PVal}
    (v : PVal) (h : cd.lookup "choices" = some w) (k : String) (hk : k ≠ "choices") :
    copyKey (pdict (pdictSet cd "choices" v)) k = copyKey (pdict cd) k := by
  simp only [copyKey, pyIn_set_preserved v h, pyGetItem_set_ne "choices" v k hk]

theorem streamingChoices_sync_to_async :
    ∀ (cs : List PVal) (i : Nat) (res : List StreamingChoicesT),
      streamingChoicesSync i cs = .ok res →
      ∃ cs2, streamingChoicesAsync i cs = .ok
        (res.map (fun sc => { sc with enhancements := pnone }), cs2) := by
  intro cs
  induction cs with
  | nil =>
      intro i res h
      have hres := (Except.ok.inj h).symm
      subst hres
      exact ⟨[], rfl⟩
  | cons c rest ih =>
      intro i res h
      simp only [streamingChoicesSync] at h
      obtain ⟨sc, hsc, h⟩ := exceptBind_ok h
      obtain ⟨tail, htail, h⟩ := exceptBind_ok h
      have hres := Except.ok.inj h
      obtain ⟨c2, hc2⟩ := streamingChoice_sync_to_async i c sc hsc
      obtain ⟨cs2, hcs2⟩ := ih (i + 1) tail htail
      refine ⟨c2 :: cs2, ?_⟩
      simp only [streamingChoicesAsync]
      rw [hc2, ok_bind, hcs2, ok_bind, ← hres]
      rfl

/-- Counterexample for C4: on a payload whose choice carries
`enhancements`, the two adapters produce different choices — the
synchronous one copies the field, the asynchronous one leaves it unset. -/
theorem C4_counterexample :
    (convertToStreamingResponseAsync (some c4Payload)).map (fun q => q.1.choices) ≠
    (convertToStreamingResponse (some c4Payload)).map SMR.choices := by
  intro hcontra
  have h1 : (convertToStreamingResponseAsync (some c4Payload)).map
      (fun q => q.1.choices) = .ok c4AsyncChoices := rfl
  have h2 : (convertToStreamingResponse (some c4Payload)).map SMR.choices =
      .ok c4SyncChoices := rfl
  rw [h1, h2] at hcontra
  have h4 := congrArg (fun l => l.map (fun sc => pyStr sc.enhancements))
    (Except.ok.inj hcontra)
  exact absurd h4 (by decide)

/-- C4 (amended): the two streaming adapters apply the same per-choice
normalization — tool-call records missing an index are assigned their
position and typed, Delta fields and the finish-reason fallback agree, and
the top-level copies agree — EXCEPT that only the synchronous variant
copies `enhancements`: whenever the synchronous adapter succeeds, the
asynchronous adapter yields the same response with every choice's
`enhancements` cleared (alongside the payload as mutated). -/
theorem C4_streaming_adapters_agree :
    ∀ (ro : Option PVal) (r : SMR),
      convertToStreamingResponse ro = .ok r →
      ∃ p, convertToStreamingResponseAsync ro = .ok (eraseEnhancements r, p) := by
  intro ro r h
  cases ro with
  | none => exact Except.noConfusion h
  | some rov =>
      simp only [convertToStreamingResponse] at h
      obtain ⟨choicesV, hcv, h⟩ := exceptBind_ok h
      obtain ⟨elems, hel, h⟩ := exceptBind_ok h
      obtain ⟨choices, hch, h⟩ := exceptBind_ok h
      obtain ⟨usage, hus, h⟩ := exceptBind_ok h
      obtain ⟨idv, hid, h⟩ := exceptBind_ok h
      obtain ⟨createdv, hcr, h⟩ := exceptBind_ok h
      obtain ⟨sfv, hsf, h⟩ := exceptBind_ok h
      obtain ⟨modelv, hmo, h⟩ := exceptBind_ok h
      have hfin := Except.ok.inj h
      obtain ⟨cd, hroveq, hlk⟩ := pyGetItem_ok_pdict hcv
      obtain ⟨cs2, hcs2⟩ := streamingChoices_sync_to_async elems 0 choices hch
      cases choicesV with
      | plist l =>
          have helems : l = elems := Except.ok.inj hel
          subst helems
          subst hroveq
          refine ⟨pdict (pdictSet cd "choices" (plist cs2)), ?_⟩
          simp only [convertToStreamingResponseAsync]
          rw [hcv, ok_bind, hel, ok_bind, hcs2, ok_bind]
          simp only []
          rw [usageFromPayload_set_preserved _ hlk, hus, ok_bind,
              copyKey_set_preserved _ hlk "id" (by decide), hid, ok_bind,
              copyKey_set_preserved _ hlk "created" (by decide), hcr, ok_bind,
              copyKey_set_preserved _ hlk "system_fingerprint" (by decide), hsf, ok_bind,
              copyKey_set_preserved _ hlk "model" (by decide), hmo, ok_bind]
          rw [← hfin]
          rfl
      | pnone =>
          refine ⟨rov, ?_⟩
          simp only [convertToStreamingResponseAsync]
          rw [hcv, ok_bind, hel, ok_bind, hcs2, ok_bind]
          simp only []
          rw [hus, ok_bind, hid, ok_bind, hcr, ok_bind, hsf, ok_bind, hmo, ok_bind,
              ← hfin]
          rfl
      | pbool b =>
          refine ⟨rov, ?_⟩
          simp only [convertToStreamingResponseAsync]
          rw [hcv, ok_bind, hel, ok_bind, hcs2, ok_bind]
          simp only []
          rw [hus, ok_bind, hid, ok_bind, hcr, ok_bind, hsf, ok_bind, hmo, ok_bind,
              ← hfin]
          rfl
      | pint n =>
          refine ⟨rov, ?_⟩
          simp only [convertToStreamingResponseAsync]
          rw [hcv, ok_bind, hel, ok_bind, hcs2, ok_bind]
          simp only []
          rw [hus, ok_bind, hid, ok_bind, hcr, ok_bind, hsf, ok_bind, hmo, ok_bind,
              ← hfin]
          rfl
      | pstr s =>
          refine ⟨rov, ?_⟩
          simp only [convertToStreamingResponseAsync]
          rw [hcv, ok_bind, hel, ok_bind, hcs2, ok_bind]
          simp only []
          rw [hus, ok_bind, hid, ok_bind, hcr, ok_bind, hsf, ok_bind, hmo, ok_bind,
              ← hfin]
          rfl
      | pdict d2 =>
          refine ⟨rov, ?_⟩
          simp only [convertToStreamingResponseAsync]
          rw [hcv, ok_bind, hel, ok_bind, hcs2, ok_bind]
          simp only []
          rw [hus, ok_bind, hid, ok_bind, hcr, ok_bind, hsf, ok_bind, hmo, ok_bind,
              ← hfin]
          rfl
      | pdtc a b ce e =>
          refine ⟨rov, ?_⟩
          simp only [convertToStreamingResponseAsync]
          rw [hcv, ok_bind, hel, ok_bind, hcs2, ok_bind]
          simp only []
          rw [hus, ok_bind, hid, ok_bind, hcr, ok_bind, hsf, ok_bind, hmo, ok_bind,
              ← hfin]
          rfl

/-- Witness for C4: an enhancement-free payload converts identically under
both adapters. -/
theorem C4_witness :
    convertToStreamingResponse (some c4wPayload) = .ok c4wRes ∧
    (convertToStreamingResponseAsync (some c4wPayload)).map Prod.fst =
      .ok (eraseEnhancements c4wRes) := by
  refine ⟨rfl, ?_⟩
  obtain ⟨p, hp⟩ := C4_streaming_adapters_agree (some c4wPayload) c4wRes rfl
  rw [hp]
  rfl

theorem streamingChoiceAsync_no_mutation (i : Nat) (c : PVal) (sc : StreamingChoicesT)
    (c2 : PVal) (h : streamingChoiceAsync i c = .ok (sc, c2))
    (hmut : mutatesToolCalls c = false) : c2 = c := by
  simp only [streamingChoiceAsync] at h
  obtain ⟨msgV, hm, h⟩ := exceptBind_ok h
  obtain ⟨tcV0, htc0, h⟩ := exceptBind_ok h
  obtain ⟨step, hstep, h⟩ := exceptBind_ok h
  obtain ⟨cd, hceq, hlkm⟩ := pyGetItem_ok_pdict hm
  obtain ⟨md, hmdeq, htcval⟩ := pyGetD_ok_pdict htc0
  have hq : asyncToolCallStep tcV0 = .ok none := by
    rw [hceq] at hmut
    rw [hmdeq] at hlkm
    simp only [mutatesToolCalls, hlkm] at hmut
    rw [htcval]
    cases hl : md.lookup "tool_calls" with
    | none => rfl
    | some v =>
        rw [hl] at hmut
        cases v with
        | plist l2 =>
            cases l2 with
            | nil => rfl
            | cons t rest2 =>
                cases t with
                | pdict d => exact Bool.noConfusion hmut
                | pnone => rfl
                | pbool b => rfl
                | pint n => rfl
                | pstr s => rfl
                | plist l3 => rfl
                | pdtc a b ce e => rfl
        | pnone => rfl
        | pbool b => rfl
        | pint n => rfl
        | pstr s => rfl
        | pdict d => rfl
        | pdtc a b ce e => rfl
  have hstepn : step = none := (Except.ok.inj (hq.symm.trans hstep)).symm
  rw [hstepn] at h
  repeat obtain ⟨_, _, h⟩ := exceptBind_ok h
  have hpair := Except.ok.inj h
  exact (congrArg Prod.snd hpair).symm

theorem streamingChoicesAsync_no_mutation :
    ∀ (cs : List PVal) (i : Nat) (res : List StreamingChoicesT × List PVal),
      streamingChoicesAsync i cs = .ok res →
      (∀ c ∈ cs, mutatesToolCalls c = false) → res.2 = cs := by
  intro cs
  induction cs with
  | nil =>
      intro i res h _
      rw [← Except.ok.inj h]
  | cons c rest ih =>
      intro i res h hall
      simp only [streamingChoicesAsync] at h
      obtain ⟨p, hp, h⟩ := exceptBind_ok h
      obtain ⟨q, hq, h⟩ := exceptBind_ok h
      have hc2 := streamingChoiceAsync_no_mutation i c p.1 p.2 hp
        (hall c (List.mem_cons_self c rest))
      have hq2 := ih (i + 1) q hq (fun x hx => hall x (List.mem_cons_of_mem c hx))
      rw [← Except.ok.inj h]
      simp only []
      rw [hc2, hq2]

/-- Counterexample for C7: the asynchronous adapter does not leave the
payload unchanged — on a payload whose choice carries a raw tool-call
record, the record is replaced in place by a typed delta tool-call
object. -/
theorem C7_counterexample :
    (convertToStreamingResponseAsync (some c7Payload)).map Prod.snd ≠ .ok c7Payload := by
  intro hcontra
  have h1 : (convertToStreamingResponseAsync (some c7Payload)).map Prod.snd =
      .ok c7Mutated := rfl
  rw [h1] at hcontra
  have h2 := congrArg jsonDumps (Except.ok.inj hcontra)
  exact absurd h2 (by decide)

/-- C7 (amended): the synchronous adapter is a pure reader of its payload
(it is modelled as a function that never returns an updated payload), and
the asynchronous adapter's only write to the caller's payload is the
typing of qualifying raw tool-call lists: whenever no choice of the
payload carries a non-empty list-of-records `tool_calls`, the payload is
returned exactly as supplied. -/
theorem C7_async_mutation_scope :
    ∀ (kvs : List (String × PVal)) (r : SMR) (p : PVal),
      convertToStreamingResponseAsync (some (pdict kvs)) = .ok (r, p) →
      (∀ cs, kvs.lookup "choices" = some (plist cs) →
        ∀ c ∈ cs, mutatesToolCalls c = false) →
      p = pdict kvs := by
  intro kvs r p h hno
  simp only [convertToStreamingResponseAsync] at h
  obtain ⟨choicesV, hcv, h⟩ := exceptBind_ok h
  obtain ⟨elems, hel, h⟩ := exceptBind_ok h
  obtain ⟨pa, hpa, h⟩ := exceptBind_ok h
  have hlk := pyGetItem_pdict_lookup hcv
  cases choicesV with
  | plist l =>
      have helems : l = elems := Except.ok.inj hel
      rw [← helems] at hpa
      have hpa2 := streamingChoicesAsync_no_mutation l 0 pa hpa (hno l hlk)
      repeat obtain ⟨_, _, h⟩ := exceptBind_ok h
      have hpair := Except.ok.inj h
      have hp2 : p = pdict (pdictSet kvs "choices" (plist pa.2)) :=
        (congrArg Prod.snd hpair).symm
      rw [hp2, hpa2]
      exact congrArg pdict (pdictSet_same hlk)
  | pnone =>
      repeat obtain ⟨_, _, h⟩ := exceptBind_ok h
      exact (congrArg Prod.snd (Except.ok.inj h)).symm
  | pbool b =>
      repeat obtain ⟨_, _, h⟩ := exceptBind_ok h
      exact (congrArg Prod.snd (Except.ok.inj h)).symm
  | pint n =>
      repeat obtain ⟨_, _, h⟩ := exceptBind_ok h
      exact (congrArg Prod.snd (Except.ok.inj h)).symm
  | pstr s =>
      repeat obtain ⟨_, _, h⟩ := exceptBind_ok h
      exact (congrArg Prod.snd (Except.ok.inj h)).symm
  | pdict d =>
      repeat obtain ⟨_, _, h⟩ := exceptBind_ok h
      exact (congrArg Prod.snd (Except.ok.inj h)).symm
  | pdtc a b ce e =>
      repeat obtain ⟨_, _, h⟩ := exceptBind_ok h
      exact (congrArg Prod.snd (Except.ok.inj h)).symm

/-- Witness for C7: a payload whose choice has no tool calls comes back
from the asynchronous adapter unchanged. -/
theorem C7_witness :
    mutatesToolCalls c7wChoice = false ∧
    (convertToStreamingResponseAsync (some c7wPayload)).map Prod.snd =
      .ok c7wPayload := by
  refine ⟨rfl, ?_⟩
  have he : convertToStreamingResponseAsync (some c7wPayload) =
      .ok (c7wRes, c7wPayload) := rfl
  have hp := C7_async_mutation_scope c7wKvs c7wRes c7wPayload he
    (by
      intro cs hcs c hc
      have h0 : (some (plist [c7wChoice]) : Option PVal) = some (plist cs) := by
        rw [← hcs]; rfl
      have h1 := Option.some.inj h0
      injection h1 with h2
      rw [← h2] at hc
      rw [List.mem_singleton.mp hc]
      rfl)
  rw [he]
  exact hp ▸ rfl

end LitellmSpec
